import Mathlib

/-!
Verification of the order-document extraction pipeline
(`app/extractors` and `app/utils`) against its natural-language
specification.  Python values are shallowly embedded by the inductive
type `Py`; each relevant Python function is translated into a Lean
definition of the same name, and the spec's claims are settled as
theorems about those definitions.
-/

set_option maxHeartbeats 1000000

/-- Python float values: NaN, the two infinities, or a finite value
(idealised as a rational). -/
inductive PyF where
  | nan
  | inf
  | ninf
  | fin (q : ℚ)
deriving DecidableEq, Repr

/-- Shallow embedding of the Python values flowing through the pipeline:
`None`, booleans, numbers (`int`/`float` merged into `PyF`, since no
claim distinguishes them), strings, lists, tuples, dicts with string
keys, and `obj s`: an opaque non-JSON-serialisable object whose
`str()` form is `s`. -/
inductive Py where
  | none
  | bool (b : Bool)
  | num (f : PyF)
  | str (s : String)
  | list (xs : List Py)
  | tuple (xs : List Py)
  | dict (xs : List (String × Py))
  | obj (s : String)
deriving Repr

namespace Py

/-- Python truthiness (`bool(x)`).  NaN and the infinities are truthy. -/
def truthy : Py → Bool
  | .none => false
  | .bool b => b
  | .num (.fin q) => decide (q ≠ 0)
  | .num _ => true
  | .str s => decide (s ≠ "")
  | .list xs => !xs.isEmpty
  | .tuple xs => !xs.isEmpty
  | .dict xs => !xs.isEmpty
  | .obj _ => true

/-- `k in d` for a dict (`False` on non-dicts, which never occurs in the
translated code paths). -/
def hasKey (x : Py) (k : String) : Bool :=
  match x with
  | .dict kvs => kvs.any (fun kv => kv.1 == k)
  | _ => false

/-- `d.get(k)` returning `Option`: `Option.none` when the key is absent or
the value is not a dict. -/
def get? (x : Py) (k : String) : Option Py :=
  match x with
  | .dict kvs => (kvs.find? (fun kv => kv.1 == k)).map Prod.snd
  | _ => Option.none

/-- `d.get(k, default)`. -/
def getd (x : Py) (k : String) (dflt : Py) : Py :=
  (x.get? k).getD dflt

/-- `d.get(k)` (default `None`, as in Python). -/
def get (x : Py) (k : String) : Py :=
  x.getd k .none

/-- `isinstance(x, dict)`. -/
def isDict : Py → Bool
  | .dict _ => true
  | _ => false

/-- `isinstance(x, list)`. -/
def isList : Py → Bool
  | .list _ => true
  | _ => false

/-- Key update on an association list: replaces the first binding of `k`,
or appends a new one (Python dict assignment preserves insertion order
and adds new keys at the end). -/
def setKV (k : String) (v : Py) : List (String × Py) → List (String × Py)
  | [] => [(k, v)]
  | kv :: rest =>
      if kv.1 == k then (k, v) :: rest else kv :: setKV k v rest

/-- `d[k] = v` (identity on non-dicts, which never occurs in the
translated code paths). -/
def set (x : Py) (k : String) (v : Py) : Py :=
  match x with
  | .dict kvs => .dict (setKV k v kvs)
  | other => other

/-- `len(x)` for lists/tuples/dicts/strings (`0` otherwise). -/
def pyLen : Py → Nat
  | .list xs => xs.length
  | .tuple xs => xs.length
  | .dict kvs => kvs.length
  | .str s => s.length
  | _ => 0

end Py

/-! ## `app/utils/json_utils.py` — `sanitize_for_json` (claim C10) -/

/-- Models `is_json_serializable` (a `json.dumps` probe) at the points
where `sanitize_for_json` consults it: primitive values and strings are
serialisable, opaque objects are not.  (Containers are recursed into
before this check is ever reached.) -/
def is_json_serializable : Py → Bool
  | .obj _ => false
  | _ => true

/-- `sanitize_for_json(obj, default_number, default_str, max_depth,
current_depth)`, translated clause by clause.  Recursion terminates
because every recursive call increments `current_depth` and the
function returns `None` once `current_depth > max_depth`. -/
def sanitizePy (dn : PyF) (ds : String) (maxDepth : Nat) (d : Nat) (x : Py) : Py :=
  if _h : maxDepth < d then
    Py.none
  else
    match x with
    | Py.none => Py.none
    | Py.bool b => Py.bool b
    | Py.num f =>
        match f with
        | .nan => Py.num dn
        | .inf => Py.num dn
        | .ninf => Py.num dn
        | .fin q => Py.num (.fin q)
    | Py.str s => if s = "" then Py.str ds else Py.str s
    | Py.dict kvs =>
        Py.dict (kvs.map (fun kv => (kv.1, sanitizePy dn ds maxDepth (d + 1) kv.2)))
    | Py.list xs => Py.list (xs.map (fun v => sanitizePy dn ds maxDepth (d + 1) v))
    | Py.tuple xs => Py.list (xs.map (fun v => sanitizePy dn ds maxDepth (d + 1) v))
    | Py.obj s => if is_json_serializable (Py.obj s) then Py.obj s else Py.str s
termination_by maxDepth + 1 - d
decreasing_by all_goals omega

/-- `sanitize_for_json` with its default arguments
(`default_number=0.0`, `default_str=""`, `max_depth=100`,
`current_depth=0`). -/
def sanitize_for_json (x : Py) : Py :=
  sanitizePy (.fin 0) "" 100 0 x

theorem sanitizePy_depth {dn ds maxD d} (h : maxD < d) (x : Py) :
    sanitizePy dn ds maxD d x = Py.none := by
  rw [sanitizePy.eq_def, dif_pos h]

theorem sanitizePy_none {dn ds maxD d} (h : ¬ maxD < d) :
    sanitizePy dn ds maxD d Py.none = Py.none := by
  rw [sanitizePy.eq_def, dif_neg h]

theorem sanitizePy_bool {dn ds maxD d} (h : ¬ maxD < d) (b : Bool) :
    sanitizePy dn ds maxD d (Py.bool b) = Py.bool b := by
  rw [sanitizePy.eq_def, dif_neg h]

theorem sanitizePy_num {dn ds maxD d} (h : ¬ maxD < d) (f : PyF) :
    sanitizePy dn ds maxD d (Py.num f)
      = (match f with
         | .nan => Py.num dn
         | .inf => Py.num dn
         | .ninf => Py.num dn
         | .fin q => Py.num (.fin q)) := by
  rw [sanitizePy.eq_def, dif_neg h]

theorem sanitizePy_str {dn ds maxD d} (h : ¬ maxD < d) (s : String) :
    sanitizePy dn ds maxD d (Py.str s)
      = (if s = "" then Py.str ds else Py.str s) := by
  rw [sanitizePy.eq_def, dif_neg h]

theorem sanitizePy_dict {dn ds maxD d} (h : ¬ maxD < d) (kvs : List (String × Py)) :
    sanitizePy dn ds maxD d (Py.dict kvs)
      = Py.dict (kvs.map (fun kv => (kv.1, sanitizePy dn ds maxD (d + 1) kv.2))) := by
  rw [sanitizePy.eq_def, dif_neg h]

theorem sanitizePy_list {dn ds maxD d} (h : ¬ maxD < d) (xs : List Py) :
    sanitizePy dn ds maxD d (Py.list xs)
      = Py.list (xs.map (fun v => sanitizePy dn ds maxD (d + 1) v)) := by
  rw [sanitizePy.eq_def, dif_neg h]

theorem sanitizePy_tuple {dn ds maxD d} (h : ¬ maxD < d) (xs : List Py) :
    sanitizePy dn ds maxD d (Py.tuple xs)
      = Py.list (xs.map (fun v => sanitizePy dn ds maxD (d + 1) v)) := by
  rw [sanitizePy.eq_def, dif_neg h]

theorem sanitizePy_obj {dn ds maxD d} (h : ¬ maxD < d) (s : String) :
    sanitizePy dn ds maxD d (Py.obj s) = Py.str s := by
  rw [sanitizePy.eq_def, dif_neg h]
  simp [is_json_serializable]

theorem sanitizePy_idem (d : Nat) (x : Py) :
    sanitizePy (.fin 0) "" 100 d (sanitizePy (.fin 0) "" 100 d x)
      = sanitizePy (.fin 0) "" 100 d x := by
  by_cases h : 100 < d
  · rw [sanitizePy_depth h, sanitizePy_depth h]
  · cases x with
    | none => rw [sanitizePy_none h, sanitizePy_none h]
    | bool b => rw [sanitizePy_bool h, sanitizePy_bool h]
    | num f =>
        cases f <;> simp [sanitizePy_num h]
    | str s =>
        by_cases hs : s = ""
        · subst hs; simp [sanitizePy_str h]
        · rw [sanitizePy_str h, if_neg hs, sanitizePy_str h, if_neg hs]
    | dict kvs =>
        rw [sanitizePy_dict h, sanitizePy_dict h]
        simp only [Py.dict.injEq, List.map_map]
        refine List.map_congr_left (fun kv _hkv => ?_)
        simp only [Function.comp_apply]
        exact congrArg (fun z => (kv.1, z)) (sanitizePy_idem (d + 1) kv.2)
    | list xs =>
        rw [sanitizePy_list h, sanitizePy_list h]
        simp only [Py.list.injEq, List.map_map]
        exact List.map_congr_left (fun v _hv => sanitizePy_idem (d + 1) v)
    | tuple xs =>
        rw [sanitizePy_tuple h, sanitizePy_list h]
        simp only [Py.list.injEq, List.map_map]
        exact List.map_congr_left (fun v _hv => sanitizePy_idem (d + 1) v)
    | obj s =>
        rw [sanitizePy_obj h, sanitizePy_str h]
        by_cases hs : s = ""
        · subst hs; simp
        · rw [if_neg hs]
termination_by 101 - d
decreasing_by all_goals omega

/-- C10: the JSON sanitisation function is idempotent — applying
`sanitize_for_json` (with its default parameters) twice yields the same
value as applying it once, for every embedded Python value; in
particular for every value within the recursion-depth limit.  NaN and
infinite floats become the default number `0.0`, empty strings the
default string `""`, tuples become lists, and unserialisable objects
their string form, all of which a second application leaves fixed. -/
theorem sanitize_for_json_idempotent (x : Py) :
    sanitize_for_json (sanitize_for_json x) = sanitize_for_json x :=
  sanitizePy_idem 0 x

/-! ## `app/extractors/validators/recovery_integration.py` — `_sanitize_result` (claim C9) -/

namespace Py

theorem get?_dict (kvs : List (String × Py)) (k : String) :
    (Py.dict kvs).get? k = (kvs.find? (fun kv => kv.1 == k)).map Prod.snd := rfl

theorem hasKey_iff_get?_isSome (kvs : List (String × Py)) (k : String) :
    (Py.dict kvs).hasKey k = ((Py.dict kvs).get? k).isSome := by
  simp [Py.hasKey, Py.get?, List.any_eq_true, Option.isSome_map]
  induction kvs with
  | nil => simp
  | cons kv rest ih =>
      by_cases hk : kv.1 == k
      · simp [List.find?, hk]
      · simp only [List.find?]
        rw [Bool.not_eq_true] at hk
        simp [hk, ih]

theorem get?_setKV_eq (kvs : List (String × Py)) (k : String) (v : Py) :
    (Py.dict (Py.setKV k v kvs)).get? k = some v := by
  induction kvs with
  | nil => simp [Py.setKV, Py.get?, List.find?]
  | cons kv rest ih =>
      by_cases hk : kv.1 == k
      · simp [Py.setKV, hk, Py.get?, List.find?]
      · rw [Bool.not_eq_true] at hk
        simp only [Py.setKV, hk, Bool.false_eq_true, if_false]
        simpa [Py.get?, List.find?, hk] using ih

theorem get?_setKV_ne (kvs : List (String × Py)) (k k2 : String) (v : Py)
    (h : k ≠ k2) :
    (Py.dict (Py.setKV k v kvs)).get? k2 = (Py.dict kvs).get? k2 := by
  have hkk2 : (k == k2) = false := by simpa using h
  induction kvs with
  | nil => simp [Py.setKV, Py.get?, List.find?, hkk2]
  | cons kv rest ih =>
      by_cases hk : (kv.1 == k) = true
      · have hkv : kv.1 = k := by simpa using hk
        have h2 : (kv.1 == k2) = false := by rw [hkv]; exact hkk2
        simp [Py.setKV, hk, Py.get?, List.find?, hkk2, h2]
      · have hkf : (kv.1 == k) = false := by simpa using hk
        simp only [Py.setKV, hkf, Bool.false_eq_true, if_false]
        by_cases hk2 : (kv.1 == k2) = true
        · simp [Py.get?, List.find?, hk2]
        · have h2 : (kv.1 == k2) = false := by simpa using hk2
          simpa [Py.get?, List.find?, h2] using ih

theorem get?_eq_some_of_get {x : Py} {k : String} {v : Py} (h : x.get k = v)
    (hv : v ≠ Py.none) : x.get? k = some v := by
  unfold Py.get Py.getd at h
  cases hf : x.get? k with
  | none => rw [hf] at h; simp at h; exact absurd h.symm hv
  | some w => rw [hf] at h; simp at h; rw [h]

theorem get_set_eq (kvs : List (String × Py)) (k : String) (v : Py) :
    ((Py.dict kvs).set k v).get k = v := by
  simp [Py.set, Py.get, Py.getd, get?_setKV_eq]

theorem get_set_ne (kvs : List (String × Py)) (k k2 : String) (v : Py) (h : k ≠ k2) :
    ((Py.dict kvs).set k v).get k2 = (Py.dict kvs).get k2 := by
  simp [Py.set, Py.get, Py.getd, get?_setKV_ne _ _ _ _ h]

end Py

/-- The per-product loop of `_sanitize_result`: non-dict products are
skipped; a product without a truthy `material_code` is appended (kept
"for review"); a product without a color carrying a `color_code` is
also appended (kept "with a warning" — the `has_valid_color` scan only
feeds a log message); every other dict product is appended as well. -/
def sanitizeResultProducts : List Py → List Py
  | [] => []
  | p :: rest =>
      if ¬ p.isDict then sanitizeResultProducts rest
      else if ¬ (p.get "material_code").truthy then
        p :: sanitizeResultProducts rest
      else
        p :: sanitizeResultProducts rest

/-- `_sanitize_result`: ensures the `products` and `order_info` keys
exist, then filters the products list through the loop above.  (A
non-list `products` value would make the Python `for` loop raise or
iterate element-wise; those inputs are outside the modelled scope and
are returned unchanged here.) -/
def sanitize_result (result : Py) : Py :=
  let r1 := if ¬ result.hasKey "products" then result.set "products" (.list []) else result
  let r2 := if ¬ r1.hasKey "order_info" then r1.set "order_info" (.dict []) else r1
  match r2.get "products" with
  | .list ps => r2.set "products" (.list (sanitizeResultProducts ps))
  | _ => r2

theorem sanitizeResultProducts_eq_filter (ps : List Py) :
    sanitizeResultProducts ps = ps.filter Py.isDict := by
  induction ps with
  | nil => rfl
  | cons p rest ih =>
      by_cases hp : p.isDict
      · simp [sanitizeResultProducts, hp, List.filter, ih]
      · simp [sanitizeResultProducts, hp, List.filter, ih]

/-- C9: the recovery-path sanitiser `_sanitize_result` removes exactly
the entries of the `products` list that are not objects (dicts).  Every
dict product is retained — including products with a missing or empty
`material_code` and products with no color carrying a `color_code` — so
partial- and emergency-recovery results may contain codeless or
colorless products at the recovery interface. -/
theorem sanitize_result_drops_only_non_dicts (result : Py) (ps : List Py)
    (h : result.get "products" = Py.list ps) :
    (sanitize_result result).get "products" = Py.list (ps.filter Py.isDict) := by
  cases result with
  | dict kvs =>
      have hk : (Py.dict kvs).hasKey "products" = true := by
        rw [Py.hasKey_iff_get?_isSome, Py.get?_eq_some_of_get h (by simp)]
        rfl
      by_cases ho : (Py.dict kvs).hasKey "order_info"
      · simp only [sanitize_result, if_neg (not_not_intro hk),
          if_neg (not_not_intro ho), h]
        rw [Py.get_set_eq, sanitizeResultProducts_eq_filter]
      · have hpres : ((Py.dict kvs).set "order_info" (Py.dict [])).get "products"
            = Py.list ps := by
          rw [Py.get_set_ne _ _ _ _ (by decide)]; exact h
        simp only [sanitize_result, if_neg (not_not_intro hk), if_pos ho, hpres]
        show ((Py.dict (Py.setKV "order_info" (Py.dict []) kvs)).set "products"
            (Py.list (sanitizeResultProducts ps))).get "products"
          = Py.list (ps.filter Py.isDict)
        rw [Py.get_set_eq, sanitizeResultProducts_eq_filter]
  | _ =>
      exfalso
      simp [Py.get, Py.getd, Py.get?] at h

/-- C9 witness: a recovery result whose products list holds a codeless
product, a colorless product and a non-object entry keeps exactly the
two dict products. -/
theorem sanitize_result_drops_only_non_dicts_witness :
    (sanitize_result (Py.dict [("products", Py.list
        [Py.dict [("name", Py.str "X")],
         Py.dict [("material_code", Py.str "AB12"), ("colors", Py.list [])],
         Py.str "junk"])])).get "products"
      = Py.list [Py.dict [("name", Py.str "X")],
         Py.dict [("material_code", Py.str "AB12"), ("colors", Py.list [])]] := by
  have h := sanitize_result_drops_only_non_dicts
    (Py.dict [("products", Py.list
        [Py.dict [("name", Py.str "X")],
         Py.dict [("material_code", Py.str "AB12"), ("colors", Py.list [])],
         Py.str "junk"])])
    [Py.dict [("name", Py.str "X")],
     Py.dict [("material_code", Py.str "AB12"), ("colors", Py.list [])],
     Py.str "junk"] rfl
  simpa [Py.isDict] using h

/-! ## `app/extractors/validators/recovery_integration.py` — `robust_json_parse` (claim C4)

The recovery chain scans the raw oracle text with regexes and feeds
candidate substrings to `json.loads`.  `json.loads` is Python standard
library, external to the repository, and is abstracted as a parameter
`parse : List Char → Option Py` (`Option.none` models `JSONDecodeError`).
All the repository's own scanning and cleaning code is translated
concretely over `List Char`. -/

/-- Python's `\s` class. -/
def isPySpace (c : Char) : Bool :=
  c = ' ' || c = '\t' || c = '\n' || c = Char.ofNat 13 || c = Char.ofNat 11 ||
    c = Char.ofNat 12

/-- `strip()` / the `\s*…\s*` trimming around a regex capture. -/
def pyStrip (s : List Char) : List Char :=
  ((s.dropWhile isPySpace).reverse.dropWhile isPySpace).reverse

/-- Splits `s` at the first occurrence of `pat`, returning the part
before it and the part after it; `Option.none` when `pat` does not occur. -/
def splitAtSub (pat : List Char) : List Char → Option (List Char × List Char)
  | [] => if pat.isEmpty then some ([], []) else Option.none
  | c :: rest =>
      if pat.isPrefixOf (c :: rest) then some ([], (c :: rest).drop pat.length)
      else
        match splitAtSub pat rest with
        | some (pre, post) => some (c :: pre, post)
        | Option.none => Option.none

/-- `sub in s`. -/
def containsSub (pat s : List Char) : Bool :=
  (splitAtSub pat s).isSome

/-- The backtick character. -/
def tick : Char := Char.ofNat 96

/-- The apostrophe character. -/
def apos : Char := Char.ofNat 39

/-- Fence delimiter of a code block. -/
def fence : List Char := [tick, tick, tick]

/-- The fenced-code-block matches of
``re.findall(r'```(?:json)?\s*([\s\S]*?)\s*```', text)``: repeatedly
take the earliest opening fence, optionally skip a `json` language tag,
find the earliest closing fence, and emit the trimmed text in between.
`fuel` only bounds the number of blocks and is always supplied as the
text length, which the block count cannot exceed. -/
def fencedBlocksAux : Nat → List Char → List (List Char)
  | 0, _ => []
  | fuel + 1, s =>
      match splitAtSub fence s with
      | Option.none => []
      | some (_, afterOpen) =>
          let afterLang :=
            if ("json".toList).isPrefixOf afterOpen then afterOpen.drop 4 else afterOpen
          match splitAtSub fence afterLang with
          | Option.none => []
          | some (content, afterClose) =>
              pyStrip content :: fencedBlocksAux fuel afterClose

/-- All fenced code blocks of the text, in order. -/
def fencedBlocks (s : List Char) : List (List Char) :=
  fencedBlocksAux (s.length + 1) s

/-- The single candidate of
``re.findall(r'(\{[\s\S]*"products"[\s\S]*\})', text)``: the greedy,
earliest-start match runs from the first `{` of the text to the last
`}` after it, and exists exactly when a quoted `"products"` occurs
strictly between them. -/
def stage2Candidate (s : List Char) : Option (List Char) :=
  match splitAtSub ['{'] s with
  | Option.none => Option.none
  | some (_, afterBrace) =>
      match splitAtSub ['}'] afterBrace.reverse with
      | Option.none => Option.none
      | some (_, revMid) =>
          let mid := revMid.reverse
          if containsSub ('"' :: ("products".toList) ++ ['"']) mid then
            some ('{' :: mid ++ ['}'])
          else Option.none

/-- First match of
``re.findall(r'"products"\s*:\s*(\[[\s\S]*?\])', text)``: bump-along
scan for a quoted `"products"` followed by `:`, `[` (with optional
whitespace) and a closing `]`; the lazy group captures up to the first
`]`. -/
def stage3CandidateAux : Nat → List Char → Option (List Char)
  | 0, _ => Option.none
  | _, [] => Option.none
  | fuel + 1, c :: rest =>
      let s := c :: rest
      let pq : List Char := '"' :: ("products".toList) ++ ['"']
      if pq.isPrefixOf s then
        match (s.drop pq.length).dropWhile isPySpace with
        | ':' :: r2 =>
            match r2.dropWhile isPySpace with
            | '[' :: r3 =>
                match splitAtSub [']'] r3 with
                | some (inner, _) => some ('[' :: inner ++ [']'])
                | Option.none => stage3CandidateAux fuel rest
            | _ => stage3CandidateAux fuel rest
        | _ => stage3CandidateAux fuel rest
      else stage3CandidateAux fuel rest

def stage3Candidate (s : List Char) : Option (List Char) :=
  stage3CandidateAux (s.length + 1) s

/-- One attempted match of `"material_code"\s*:\s*"([^"]+)"` at the head
of `s`: on success returns the (non-empty) captured code and the
remainder after the closing quote. -/
def matchMaterialCodeAt (s : List Char) : Option (String × List Char) :=
  let mc : List Char := '"' :: ("material_code".toList) ++ ['"']
  if mc.isPrefixOf s then
    match (s.drop mc.length).dropWhile isPySpace with
    | ':' :: r2 =>
        match r2.dropWhile isPySpace with
        | '"' :: r3 =>
            let code := r3.takeWhile (fun c => c ≠ '"')
            match r3.dropWhile (fun c => c ≠ '"') with
            | '"' :: r4 =>
                if code.isEmpty then Option.none
                else some (String.mk code, r4)
            | _ => Option.none
        | _ => Option.none
    | _ => Option.none
  else Option.none

/-- `re.findall(r'"material_code"\s*:\s*"([^"]+)"', text)`: bump-along
scan emitting each captured code, continuing after the match. -/
def findMaterialCodesAux : Nat → List Char → List String
  | 0, _ => []
  | _, [] => []
  | fuel + 1, c :: rest =>
      match matchMaterialCodeAt (c :: rest) with
      | some (code, remainder) => code :: findMaterialCodesAux fuel remainder
      | Option.none => findMaterialCodesAux fuel rest

def findMaterialCodes (s : List Char) : List String :=
  findMaterialCodesAux (s.length + 1) s

/-! ### `_clean_json_string` -/

/-- `re.sub(r'//.*?$', '', s, flags=re.MULTILINE)`: truncate every line
at its first `//`. -/
def removeLineComments (s : List Char) : List Char :=
  List.intercalate ['\n'] ((s.splitOn '\n').map (fun line =>
    match splitAtSub ['/', '/'] line with
    | some (pre, _) => pre
    | Option.none => line))

/-- `re.sub(r'/\*.*?\*/', '', s, flags=re.DOTALL)`: repeatedly delete
from an opening `/*` to the earliest `*/` after it. -/
def removeBlockCommentsAux : Nat → List Char → List Char
  | 0, s => s
  | fuel + 1, s =>
      match splitAtSub ['/', '*'] s with
      | Option.none => s
      | some (pre, afterOpen) =>
          match splitAtSub ['*', '/'] afterOpen with
          | Option.none => s
          | some (_, afterClose) => pre ++ removeBlockCommentsAux fuel afterClose

def removeBlockComments (s : List Char) : List Char :=
  removeBlockCommentsAux (s.length + 1) s

/-- `re.sub(r"'([^']*)':", r'"\1":', s)`: single-quoted keys become
double-quoted. -/
def fixQuotedKeysAux : Nat → List Char → List Char
  | 0, s => s
  | _, [] => []
  | fuel + 1, c :: rest =>
      if c = apos then
        let inner := rest.takeWhile (fun ch => ch ≠ apos)
        match rest.dropWhile (fun ch => ch ≠ apos) with
        | a :: ':' :: r2 =>
            if a = apos then
              '"' :: inner ++ '"' :: ':' :: fixQuotedKeysAux fuel r2
            else c :: fixQuotedKeysAux fuel rest
        | _ => c :: fixQuotedKeysAux fuel rest
      else c :: fixQuotedKeysAux fuel rest

def fixQuotedKeys (s : List Char) : List Char :=
  fixQuotedKeysAux (s.length + 1) s

/-- `re.sub(r":\s*'([^']*)'", r': "\1"', s)`: single-quoted values after
a colon become double-quoted (whitespace normalised to one space). -/
def fixQuotedValuesAux : Nat → List Char → List Char
  | 0, s => s
  | _, [] => []
  | fuel + 1, c :: rest =>
      if c = ':' then
        match rest.dropWhile isPySpace with
        | a :: r1 =>
            if a = apos then
              let inner := r1.takeWhile (fun ch => ch ≠ apos)
              match r1.dropWhile (fun ch => ch ≠ apos) with
              | _ :: r2 => ':' :: ' ' :: '"' :: inner ++ '"' :: fixQuotedValuesAux fuel r2
              | [] => c :: fixQuotedValuesAux fuel rest
            else c :: fixQuotedValuesAux fuel rest
        | [] => c :: fixQuotedValuesAux fuel rest
      else c :: fixQuotedValuesAux fuel rest

def fixQuotedValues (s : List Char) : List Char :=
  fixQuotedValuesAux (s.length + 1) s

/-- `re.sub(r',\s*X', 'X', s)` for a closing delimiter `X` (`}` or `]`):
drops trailing commas. -/
def fixTrailingCommasAux (close : Char) : Nat → List Char → List Char
  | 0, s => s
  | _, [] => []
  | fuel + 1, c :: rest =>
      if c = ',' then
        match rest.dropWhile isPySpace with
        | a :: r1 =>
            if a = close then close :: fixTrailingCommasAux close fuel r1
            else c :: fixTrailingCommasAux close fuel rest
        | [] => c :: fixTrailingCommasAux close fuel rest
      else c :: fixTrailingCommasAux close fuel rest

def fixTrailingCommas (close : Char) (s : List Char) : List Char :=
  fixTrailingCommasAux close (s.length + 1) s

def isWordChar (c : Char) : Bool := c.isAlphanum || c = '_'

/-- Case-insensitive prefix test against a lowercase word. -/
def lowerPrefix : List Char → List Char → Bool
  | [], _ => true
  | _ :: _, [] => false
  | w :: ws, c :: cs => w = c.toLower && lowerPrefix ws cs

/-- `re.sub(r'\bWORD\b', repl, s, flags=re.IGNORECASE)`: word-boundary,
case-insensitive whole-word replacement.  `prevW` records whether the
previous character was a word character. -/
def replaceWordAux (w repl : List Char) : Nat → Bool → List Char → List Char
  | 0, _, s => s
  | _, _, [] => []
  | fuel + 1, prevW, c :: rest =>
      let s := c :: rest
      let boundaryAfter :=
        match s.drop w.length with
        | [] => true
        | a :: _ => !isWordChar a
      if !prevW && lowerPrefix w s && boundaryAfter then
        repl ++ replaceWordAux w repl fuel true (s.drop w.length)
      else c :: replaceWordAux w repl fuel (isWordChar c) rest

def replaceWord (w repl : List Char) (s : List Char) : List Char :=
  replaceWordAux w repl (s.length + 1) false s

/-- `_clean_json_string`, applying its substitutions in source order and
finishing with `strip()`. -/
def clean_json_string (s : List Char) : List Char :=
  pyStrip
    (replaceWord ("nan".toList) ['0']
      (replaceWord ("undefined".toList) ("null".toList)
        (fixTrailingCommas ']'
          (fixTrailingCommas '}'
            (fixQuotedValues
              (fixQuotedKeys
                (removeBlockComments
                  (removeLineComments s))))))))

/-! ### The four recovery strategies -/

/-- Strategy 1: for each fenced block, clean it and parse it; succeed on
the first block parsing to a dict containing `"products"`. -/
def tryStage1 (parse : List Char → Option Py) (text : List Char) : Option Py :=
  (fencedBlocks text).findSome? (fun m =>
    match parse (clean_json_string m) with
    | some r => if r.isDict && r.hasKey "products" then some (sanitize_result r) else Option.none
    | Option.none => Option.none)

/-- Strategy 2: the brace-delimited candidate containing `"products"`;
succeed if it cleans and parses to any dict. -/
def tryStage2 (parse : List Char → Option Py) (text : List Char) : Option Py :=
  match stage2Candidate text with
  | some cand =>
      match parse (clean_json_string cand) with
      | some r => if r.isDict then some (sanitize_result r) else Option.none
      | Option.none => Option.none
  | Option.none => Option.none

/-- Strategy 3 (partial recovery): parse the extracted
`"products": […]` array alone (uncleaned, as in the source) and wrap it
with a `_partial_recovery` tag. -/
def tryStage3 (parse : List Char → Option Py) (text : List Char) : Option Py :=
  match stage3Candidate text with
  | some arr =>
      match parse arr with
      | some (Py.list products) =>
          some (sanitize_result (Py.dict
            [("products", Py.list products),
             ("order_info", Py.dict []),
             ("_partial_recovery", Py.bool true)]))
      | _ => Option.none
  | Option.none => Option.none

/-- The placeholder product synthesised by emergency recovery for one
captured material code: one default color `"001"`, one size `"UN"` with
quantity 1, zero prices. -/
def emergencyProduct (code : String) : Py :=
  Py.dict
    [("material_code", Py.str code),
     ("name", Py.str ("Produto " ++ code)),
     ("colors", Py.list
       [Py.dict
         [("color_code", Py.str "001"),
          ("color_name", Py.str "Padrão"),
          ("sizes", Py.list [Py.dict [("size", Py.str "UN"), ("quantity", Py.num (.fin 1))]]),
          ("unit_price", Py.num (.fin 0)),
          ("sales_price", Py.num (.fin 0)),
          ("subtotal", Py.num (.fin 0))]])]

/-- Strategy 4 (emergency recovery): synthesise a placeholder product
for each of the first 10 (`material_codes[:10]`) captured codes, tagged
`_emergency_recovery`. -/
def tryStage4 (text : List Char) : Option Py :=
  let codes := findMaterialCodes text
  if codes.isEmpty then Option.none
  else
    some (sanitize_result (Py.dict
      [("products", Py.list ((codes.take 10).map emergencyProduct)),
       ("order_info", Py.dict []),
       ("_emergency_recovery", Py.bool true)]))

/-- `robust_json_parse`: the ordered fallback chain, first success wins;
`Option.none` models the final `raise ValueError`. -/
def robust_json_parse (parse : List Char → Option Py) (text : List Char) : Option Py :=
  match tryStage1 parse text with
  | some r => some r
  | Option.none =>
      match tryStage2 parse text with
      | some r => some r
      | Option.none =>
          match tryStage3 parse text with
          | some r => some r
          | Option.none => tryStage4 text

theorem sanitize_result_emergency_fixed (codes : List String) :
    sanitize_result (Py.dict
      [("products", Py.list ((codes.take 10).map emergencyProduct)),
       ("order_info", Py.dict []),
       ("_emergency_recovery", Py.bool true)])
    = Py.dict
      [("products", Py.list ((codes.take 10).map emergencyProduct)),
       ("order_info", Py.dict []),
       ("_emergency_recovery", Py.bool true)] := by
  have hloop : sanitizeResultProducts ((codes.take 10).map emergencyProduct)
      = (codes.take 10).map emergencyProduct := by
    rw [sanitizeResultProducts_eq_filter]
    refine List.filter_eq_self.mpr (fun p hp => ?_)
    obtain ⟨c, _, rfl⟩ := List.mem_map.mp hp
    rfl
  calc sanitize_result (Py.dict
        [("products", Py.list ((codes.take 10).map emergencyProduct)),
         ("order_info", Py.dict []),
         ("_emergency_recovery", Py.bool true)])
      = (Py.dict
          [("products", Py.list ((codes.take 10).map emergencyProduct)),
           ("order_info", Py.dict []),
           ("_emergency_recovery", Py.bool true)]).set "products"
          (Py.list (sanitizeResultProducts ((codes.take 10).map emergencyProduct))) := rfl
    _ = (Py.dict
          [("products", Py.list ((codes.take 10).map emergencyProduct)),
           ("order_info", Py.dict []),
           ("_emergency_recovery", Py.bool true)]).set "products"
          (Py.list ((codes.take 10).map emergencyProduct)) := by rw [hloop]
    _ = Py.dict
          [("products", Py.list ((codes.take 10).map emergencyProduct)),
           ("order_info", Py.dict []),
           ("_emergency_recovery", Py.bool true)] := rfl

/-- C4: when strategies 1–3 of `robust_json_parse` all fail on a text
containing at least one quoted `"material_code": "…"` occurrence,
emergency recovery returns exactly the synthesized placeholder products
(one per captured code, each with one default color `"001"`, one size
`"UN"` of quantity 1 and zero prices) in a result tagged
`_emergency_recovery`, and their number is `min N 10` where `N` is the
number of occurrences. -/
theorem robust_json_parse_emergency (parse : List Char → Option Py) (text : List Char)
    (h1 : tryStage1 parse text = Option.none)
    (h2 : tryStage2 parse text = Option.none)
    (h3 : tryStage3 parse text = Option.none)
    (hN : findMaterialCodes text ≠ []) :
    robust_json_parse parse text
      = some (Py.dict
          [("products", Py.list (((findMaterialCodes text).take 10).map emergencyProduct)),
           ("order_info", Py.dict []),
           ("_emergency_recovery", Py.bool true)])
    ∧ (((findMaterialCodes text).take 10).map emergencyProduct).length
        = min (findMaterialCodes text).length 10 := by
  constructor
  · simp only [robust_json_parse, h1, h2, h3, tryStage4]
    rw [if_neg (by simpa [List.isEmpty_iff] using hN)]
    rw [sanitize_result_emergency_fixed]
  · rw [List.length_map, List.length_take, Nat.min_comm]

/-- C4 witness: with a parser that always fails and a plain text holding
exactly three `"material_code"` occurrences (no fences, braces or
`"products"` key), recovery yields exactly the 3 placeholder products,
tagged `_emergency_recovery`. -/
theorem robust_json_parse_emergency_witness :
    robust_json_parse (fun _ => Option.none)
        ("\"material_code\": \"A1\" \"material_code\": \"B2\" \"material_code\": \"C3\"".toList)
      = some (Py.dict
          [("products", Py.list
              [emergencyProduct "A1", emergencyProduct "B2", emergencyProduct "C3"]),
           ("order_info", Py.dict []),
           ("_emergency_recovery", Py.bool true)])
    ∧ ([emergencyProduct "A1", emergencyProduct "B2", emergencyProduct "C3"].length
        = min 3 10) := by
  have h := robust_json_parse_emergency (fun _ => Option.none)
    ("\"material_code\": \"A1\" \"material_code\": \"B2\" \"material_code\": \"C3\"".toList)
    rfl rfl rfl (by decide)
  have hcodes : findMaterialCodes
      ("\"material_code\": \"A1\" \"material_code\": \"B2\" \"material_code\": \"C3\"".toList)
      = ["A1", "B2", "C3"] := by decide
  rw [hcodes] at h
  exact ⟨h.1, rfl⟩

/-! ## `app/extractors/layout_detetion_agent.py` — layout determination (claim C3)

The three analyzer results are dicts in Python; they are embedded as
records holding exactly the fields the scoring code reads.  A dict that
carries only an `error` key (as produced on analyzer failure) is
represented with `error := true` and default values elsewhere — the
Python `.get(…, default)` lookups on such a dict produce exactly those
defaults. -/

structure ColumnDetection where
  column_count : ℕ
  confidence : ℚ

structure RowDetection where
  confidence : ℚ

structure TextAlignment where
  alignment_confidence : ℚ

structure TableIndicator where
  type : String
  confidence : ℚ

structure TechnicalAnalysis where
  error : Bool
  column_detection : ColumnDetection
  row_detection : RowDetection
  text_alignment : TextAlignment
  table_indicators : List TableIndicator

structure StructuralElements where
  has_clear_grid : Bool
  has_headers : Bool
  alignment_quality : String
  repetitive_patterns : Bool
  data_density : String

structure ExtractionHints where
  complexity_level : String

structure VisualAnalysis where
  error : Bool
  primary_layout : String
  confidence : ℚ
  structural_elements : StructuralElements
  extraction_hints : ExtractionHints

structure ContentTableIndicators where
  has_table_structure : Bool
  table_confidence : ℚ

structure ProductIndicators where
  has_product_structure : Bool
  product_density : ℚ

structure StructureIndicators where
  is_structured : Bool
  structure_score : ℚ

structure ContentAnalysis where
  error : Bool
  table_indicators : ContentTableIndicators
  product_indicators : ProductIndicators
  structure_indicators : StructureIndicators

/-- The result of `_determine_layout_strategy` / the layout analysis
consumed by the strategy agent.  (The free-text
`extraction_instructions` map is omitted: it carries prompt strings
that no claim or downstream computation reads.) -/
structure LayoutAnalysis where
  layout_type : String
  extraction_strategy : String
  confidence : ℚ
  layout_scores : List (String × ℚ)
  technical_analysis : TechnicalAnalysis
  visual_analysis : VisualAnalysis
  content_analysis : ContentAnalysis

/-- The per-layout score dict, with one field per candidate layout type
(initialised to 0.0 in the source, keys in insertion order
`GRID_TABULAR, LIST_VERTICAL, LIST_HORIZONTAL, HYBRID_MIXED,
FORM_FIELDS, FREE_TEXT`). -/
structure LayoutScores where
  grid_tabular : ℚ
  list_vertical : ℚ
  list_horizontal : ℚ
  hybrid_mixed : ℚ
  form_fields : ℚ
  free_text : ℚ

def LayoutScores.zero : LayoutScores := ⟨0, 0, 0, 0, 0, 0⟩

/-- `layout_scores[name] += q`, a no-op when `name` is not one of the six
keys (the only dynamic key, `primary_layout`, is guarded by an
`in layout_scores` membership test in the source). -/
def LayoutScores.addTo (ls : LayoutScores) (name : String) (q : ℚ) : LayoutScores :=
  if name = "GRID_TABULAR" then { ls with grid_tabular := ls.grid_tabular + q }
  else if name = "LIST_VERTICAL" then { ls with list_vertical := ls.list_vertical + q }
  else if name = "LIST_HORIZONTAL" then { ls with list_horizontal := ls.list_horizontal + q }
  else if name = "HYBRID_MIXED" then { ls with hybrid_mixed := ls.hybrid_mixed + q }
  else if name = "FORM_FIELDS" then { ls with form_fields := ls.form_fields + q }
  else if name = "FREE_TEXT" then { ls with free_text := ls.free_text + q }
  else ls

/-- The scores in dict insertion order. -/
def LayoutScores.toPairs (ls : LayoutScores) : List (String × ℚ) :=
  [("GRID_TABULAR", ls.grid_tabular),
   ("LIST_VERTICAL", ls.list_vertical),
   ("LIST_HORIZONTAL", ls.list_horizontal),
   ("HYBRID_MIXED", ls.hybrid_mixed),
   ("FORM_FIELDS", ls.form_fields),
   ("FREE_TEXT", ls.free_text)]

/-- `max(layout_scores, key=layout_scores.get)`: the first key attaining
the maximal value, in insertion order (Python `max` replaces the
current best only on a strictly greater key). -/
def bestLayout (ls : LayoutScores) : String × ℚ :=
  match ls.toPairs with
  | [] => ("", 0)
  | h :: t => t.foldl (fun b p => if p.2 > b.2 then p else b) h

/-- The layout→strategy mapping dict. -/
def strategyMapping : String → String
  | "GRID_TABULAR" => "table_extraction"
  | "LIST_VERTICAL" => "list_extraction"
  | "LIST_HORIZONTAL" => "horizontal_list_extraction"
  | "HYBRID_MIXED" => "hybrid_extraction"
  | "FORM_FIELDS" => "form_extraction"
  | "FREE_TEXT" => "adaptive_extraction"
  | _ => ""

/-- The layout-score accumulation of `_determine_layout_strategy`:
technical, visual and content bonuses in source order, each analyzer
skipped entirely when it carries an error. -/
def computeLayoutScores (technical : TechnicalAnalysis) (visual : VisualAnalysis)
    (content : ContentAnalysis) : LayoutScores :=
  let ls0 := LayoutScores.zero
  let ls1 :=
    if ¬ technical.error then
      let colScored :=
        if technical.column_detection.column_count ≥ 5 then
          ls0.addTo "GRID_TABULAR" (3/10 * technical.column_detection.confidence)
        else if technical.column_detection.column_count ≥ 2 then
          ls0.addTo "LIST_VERTICAL" (2/10 * technical.column_detection.confidence)
        else ls0
      let rowScored :=
        if technical.row_detection.confidence > 7/10 then
          (colScored.addTo "GRID_TABULAR" (2/10)).addTo "LIST_VERTICAL" (1/10)
        else colScored
      let alignScored :=
        if technical.text_alignment.alignment_confidence > 8/10 then
          rowScored.addTo "GRID_TABULAR" (2/10)
        else rowScored
      technical.table_indicators.foldl (fun acc ind =>
        if ind.type = "number_grid" then
          acc.addTo "GRID_TABULAR" (3/10 * ind.confidence)
        else if ind.type = "table_headers" then
          acc.addTo "GRID_TABULAR" (2/10 * ind.confidence)
        else if ind.type = "repetitive_structure" then
          acc.addTo "LIST_VERTICAL" (2/10 * ind.confidence)
        else acc) alignScored
    else ls0
  let ls2 :=
    if ¬ visual.error then
      let primScored := ls1.addTo visual.primary_layout (4/10 * visual.confidence)
      let gridScored :=
        if visual.structural_elements.has_clear_grid then
          primScored.addTo "GRID_TABULAR" (2/10)
        else primScored
      if visual.structural_elements.repetitive_patterns then
        (gridScored.addTo "LIST_VERTICAL" (1/10)).addTo "GRID_TABULAR" (1/10)
      else gridScored
    else ls1
  if ¬ content.error then
    let prodScored :=
      if content.product_indicators.has_product_structure then
        (ls2.addTo "GRID_TABULAR" (1/10)).addTo "LIST_VERTICAL" (1/10)
      else ls2
    let tableScored :=
      if content.table_indicators.has_table_structure then
        prodScored.addTo "GRID_TABULAR" (2/10 * content.table_indicators.table_confidence)
      else prodScored
    if content.structure_indicators.is_structured then
      (tableScored.addTo "GRID_TABULAR" (1/10 * content.structure_indicators.structure_score)).addTo
        "LIST_VERTICAL" (1/10 * content.structure_indicators.structure_score)
    else tableScored
  else ls2

/-- `_determine_layout_strategy`: pick the best-scoring layout; below
the 0.3 floor force `HYBRID_MIXED`/`adaptive_extraction` at confidence
exactly 0.3, otherwise cap the confidence at 0.95. -/
def determine_layout_strategy (technical : TechnicalAnalysis) (visual : VisualAnalysis)
    (content : ContentAnalysis) : LayoutAnalysis :=
  let ls := computeLayoutScores technical visual content
  let best := bestLayout ls
  if best.2 < 3/10 then
    { layout_type := "HYBRID_MIXED"
      extraction_strategy := "adaptive_extraction"
      confidence := 3/10
      layout_scores := ls.toPairs
      technical_analysis := technical
      visual_analysis := visual
      content_analysis := content }
  else
    { layout_type := best.1
      extraction_strategy := strategyMapping best.1
      confidence := min (95/100) best.2
      layout_scores := ls.toPairs
      technical_analysis := technical
      visual_analysis := visual
      content_analysis := content }

/-- An analyzer-failure dict `{"error": …}`, as a record. -/
def technicalError : TechnicalAnalysis :=
  { error := true, column_detection := ⟨0, 0⟩, row_detection := ⟨0⟩,
    text_alignment := ⟨0⟩, table_indicators := [] }

def visualError : VisualAnalysis :=
  { error := true, primary_layout := "", confidence := 0,
    structural_elements := ⟨false, false, "", false, ""⟩,
    extraction_hints := ⟨""⟩ }

def contentError : ContentAnalysis :=
  { error := true, table_indicators := ⟨false, 0⟩,
    product_indicators := ⟨false, 0⟩, structure_indicators := ⟨false, 0⟩ }

/-- `_get_fallback_analysis`: the neutral analysis returned when every
analyzer fails. -/
def get_fallback_analysis : LayoutAnalysis :=
  { layout_type := "HYBRID_MIXED"
    extraction_strategy := "adaptive_extraction"
    confidence := 3/10
    layout_scores := []
    technical_analysis := technicalError
    visual_analysis := visualError
    content_analysis := contentError }

/-- C3: layout determination never returns a confidence below 0.3: for
every triple of analyzer results the returned confidence is at least
0.3, and whenever the best weighted layout score falls below 0.3 the
result is forced to `HYBRID_MIXED`/`adaptive_extraction` at confidence
exactly 0.3; the total-failure fallback analysis also has confidence
exactly 0.3. -/
theorem determine_layout_strategy_confidence_floor :
    (∀ (t : TechnicalAnalysis) (v : VisualAnalysis) (c : ContentAnalysis),
      3/10 ≤ (determine_layout_strategy t v c).confidence
      ∧ ((bestLayout (computeLayoutScores t v c)).2 < 3/10 →
          (determine_layout_strategy t v c).layout_type = "HYBRID_MIXED"
          ∧ (determine_layout_strategy t v c).extraction_strategy = "adaptive_extraction"
          ∧ (determine_layout_strategy t v c).confidence = 3/10))
    ∧ get_fallback_analysis.confidence = 3/10 := by
  refine ⟨fun t v c => ?_, rfl⟩
  by_cases h : (bestLayout (computeLayoutScores t v c)).2 < 3/10
  · refine ⟨?_, fun _ => ⟨?_, ?_, ?_⟩⟩ <;>
      simp [determine_layout_strategy, h]
  · refine ⟨?_, fun hc => absurd hc h⟩
    simp only [determine_layout_strategy, h, if_false]
    exact le_min (by norm_num) (not_lt.mp h)

/-- C3 witness: with all three analyzers failed, every layout scores 0,
the floor fires, and the fallback analysis sits exactly at 0.3. -/
theorem determine_layout_strategy_confidence_floor_witness :
    3/10 ≤ (determine_layout_strategy technicalError visualError contentError).confidence
    ∧ (determine_layout_strategy technicalError visualError contentError).layout_type
        = "HYBRID_MIXED"
    ∧ (determine_layout_strategy technicalError visualError contentError).extraction_strategy
        = "adaptive_extraction"
    ∧ (determine_layout_strategy technicalError visualError contentError).confidence = 3/10 := by
  have h := determine_layout_strategy_confidence_floor.1 technicalError visualError contentError
  have hb : (bestLayout (computeLayoutScores technicalError visualError contentError)).2 < 3/10 := by
    norm_num [computeLayoutScores, technicalError, visualError, contentError,
      bestLayout, LayoutScores.toPairs, LayoutScores.zero]
  exact ⟨h.1, (h.2 hb).1, (h.2 hb).2.1, (h.2 hb).2.2⟩

/-! ## `app/extractors/generic_strategy_agent.py` — strategy selection and
adaptation (claim C2) -/

/-- The `ExtractionStrategy` dataclass. -/
structure ExtractionStrategy where
  name : String
  confidence : ℚ
  approach : String
  specific_instructions : List (String × String)
  fallback_strategy : Option String

/-- The fixed five-strategy registry `_initialize_generic_strategies`,
in dict insertion order. -/
def strategyRegistry : List (String × ExtractionStrategy) :=
  [("structured_table",
    { name := "Structured Table Extraction"
      confidence := 9/10
      approach := "table_extraction"
      specific_instructions :=
        [("scanning_method", "Processar sistematicamente linha por linha"),
         ("column_mapping", "Identificar colunas por posição e cabeçalhos"),
         ("cell_interpretation", "Células vazias = dados não disponíveis"),
         ("data_validation", "Verificar consistência entre linhas"),
         ("header_detection", "Usar primeira linha para mapear estrutura"),
         ("row_processing", "Manter correspondência rigorosa linha-dados")]
      fallback_strategy := some "adaptive_hybrid" }),
   ("sequential_list",
    { name := "Sequential List Extraction"
      confidence := 8/10
      approach := "list_extraction"
      specific_instructions :=
        [("item_detection", "Cada linha é um item independente"),
         ("data_parsing", "Extrair dados na ordem de aparição"),
         ("pattern_recognition", "Identificar padrão repetitivo por linha"),
         ("grouping_logic", "Agrupar dados relacionados na mesma linha"),
         ("sequence_validation", "Verificar continuidade lógica"),
         ("line_processing", "Processar linha completa como unidade")]
      fallback_strategy := some "adaptive_hybrid" }),
   ("adaptive_hybrid",
    { name := "Adaptive Hybrid Extraction"
      confidence := 7/10
      approach := "hybrid_extraction"
      specific_instructions :=
        [("section_analysis", "Analisar cada seção independentemente"),
         ("strategy_switching", "Adaptar método por região do documento"),
         ("pattern_detection", "Detectar mudanças na estrutura"),
         ("multi_approach", "Combinar múltiplas técnicas conforme necessário"),
         ("flexibility", "Ajustar estratégia baseada em resultados"),
         ("validation", "Verificar consistência entre seções")]
      fallback_strategy := some "conservative_scan" }),
   ("form_field_extraction",
    { name := "Form Field Extraction"
      confidence := 6/10
      approach := "form_extraction"
      specific_instructions :=
        [("field_mapping", "Mapear campos por posição e labels"),
         ("value_extraction", "Extrair valores associados a campos"),
         ("structure_detection", "Identificar grupos de campos relacionados"),
         ("label_recognition", "Usar labels para identificar tipos de dados"),
         ("field_validation", "Verificar completude dos campos"),
         ("form_logic", "Seguir lógica de formulário estruturado")]
      fallback_strategy := some "adaptive_hybrid" }),
   ("conservative_scan",
    { name := "Conservative Scan Extraction"
      confidence := 4/10
      approach := "adaptive_extraction"
      specific_instructions :=
        [("broad_scanning", "Usar múltiplas técnicas simultaneamente"),
         ("pattern_searching", "Procurar padrões conhecidos universais"),
         ("safe_extraction", "Extrair apenas dados com alta confiança"),
         ("multiple_passes", "Fazer múltiplas passadas com técnicas diferentes"),
         ("conservative_approach", "Evitar assumir estruturas não confirmadas"),
         ("verification", "Verificar cada extração independentemente")]
      fallback_strategy := Option.none })]

/-- Lookup in an association list (first binding wins, as in a Python
dict with unique keys). -/
def lookupAssoc {α : Type} (k : String) : List (String × α) → Option α
  | [] => Option.none
  | kv :: rest => if kv.1 = k then some kv.2 else lookupAssoc k rest

/-- `self.strategies[name] = value` semantics for the performance
history: update in place or append the new key at the end. -/
def setAssoc {α : Type} (k : String) (v : α) : List (String × α) → List (String × α)
  | [] => [(k, v)]
  | kv :: rest => if kv.1 = k then (k, v) :: rest else kv :: setAssoc k v rest

/-- The per-layout compatibility matrix `_get_layout_compatibility`
(0.0 for unknown approach/layout pairs). -/
def get_layout_compatibility (approach layout_type : String) : ℚ :=
  if approach = "table_extraction" then
    if layout_type = "GRID_TABULAR" then 4/10
    else if layout_type = "LIST_VERTICAL" then 1/10
    else if layout_type = "LIST_HORIZONTAL" then 2/10
    else if layout_type = "HYBRID_MIXED" then 2/10
    else if layout_type = "FORM_FIELDS" then 0
    else if layout_type = "FREE_TEXT" then 0
    else 0
  else if approach = "list_extraction" then
    if layout_type = "GRID_TABULAR" then 1/10
    else if layout_type = "LIST_VERTICAL" then 4/10
    else if layout_type = "LIST_HORIZONTAL" then 3/10
    else if layout_type = "HYBRID_MIXED" then 2/10
    else if layout_type = "FORM_FIELDS" then 1/10
    else if layout_type = "FREE_TEXT" then 0
    else 0
  else if approach = "hybrid_extraction" then
    if layout_type = "GRID_TABULAR" then 2/10
    else if layout_type = "LIST_VERTICAL" then 2/10
    else if layout_type = "LIST_HORIZONTAL" then 2/10
    else if layout_type = "HYBRID_MIXED" then 4/10
    else if layout_type = "FORM_FIELDS" then 2/10
    else if layout_type = "FREE_TEXT" then 1/10
    else 0
  else if approach = "form_extraction" then
    if layout_type = "GRID_TABULAR" then 0
    else if layout_type = "LIST_VERTICAL" then 1/10
    else if layout_type = "LIST_HORIZONTAL" then 1/10
    else if layout_type = "HYBRID_MIXED" then 1/10
    else if layout_type = "FORM_FIELDS" then 4/10
    else if layout_type = "FREE_TEXT" then 0
    else 0
  else if approach = "adaptive_extraction" then
    if layout_type = "GRID_TABULAR" then 1/10
    else if layout_type = "LIST_VERTICAL" then 1/10
    else if layout_type = "LIST_HORIZONTAL" then 1/10
    else if layout_type = "HYBRID_MIXED" then 1/10
    else if layout_type = "FORM_FIELDS" then 1/10
    else if layout_type = "FREE_TEXT" then 3/10
    else 0
  else 0

/-- A "complete" product: truthy `name`, truthy `colors`, and at least
one color with a non-empty `sizes` list.  Shared by the quality
computation, the consistency bonus and the scorer. -/
def productComplete (p : Py) : Bool :=
  (p.get "name").truthy && (p.get "colors").truthy &&
    (match p.getd "colors" (Py.list []) with
     | .list cs => cs.any (fun c => 0 < (c.getd "sizes" (Py.list [])).pyLen)
     | _ => false)

/-- Number of complete products in a products value (a list in every
non-pathological page result). -/
def countComplete : Py → ℕ
  | .list ps => (ps.filter productComplete).length
  | _ => 0

/-- `_calculate_complexity_bonus`. -/
def calculate_complexity_bonus (strategy : ExtractionStrategy) (visual : VisualAnalysis) : ℚ :=
  let hintBonus :=
    if ¬ visual.error then
      if visual.extraction_hints.complexity_level = "complex" then
        if strategy.approach = "hybrid_extraction" ∨ strategy.approach = "adaptive_extraction" then
          (15 : ℚ)/100
        else -(5 : ℚ)/100
      else if visual.extraction_hints.complexity_level = "simple" then
        if strategy.approach = "table_extraction" ∨ strategy.approach = "list_extraction" then
          (1 : ℚ)/10
        else 0
      else 0
    else 0
  if visual.structural_elements.data_density = "high"
      ∧ strategy.approach = "adaptive_extraction" then
    hintBonus + 1/10
  else hintBonus

/-- `_calculate_consistency_bonus` over the last two page results. -/
def calculate_consistency_bonus (previous_results : List Py) : ℚ :=
  if previous_results.isEmpty then 0
  else
    let recent := previous_results.drop (previous_results.length - 2)
    let success_rate := recent.foldl (fun acc result =>
      let products := result.getd "products" (Py.list [])
      if 0 < products.pyLen then
        acc + (countComplete products : ℚ) / (max 1 products.pyLen : ℚ)
      else acc) 0
    let avg_success := success_rate / (recent.length : ℚ)
    if avg_success > 7/10 then 1/10
    else if avg_success < 3/10 then -(1 : ℚ)/10
    else 0

/-- `_calculate_layout_based_score`, factor by factor, clamped to
`[0, 1]`. -/
def calculate_layout_based_score (strategy : ExtractionStrategy) (la : LayoutAnalysis)
    (page_number : ℕ) (previous_results : Option (List Py)) : ℚ :=
  let base := strategy.confidence
  let s1 := base + get_layout_compatibility strategy.approach la.layout_type * la.confidence
  let s2 :=
    if ¬ la.technical_analysis.error then
      let cc := la.technical_analysis.column_detection.column_count
      let ccf := la.technical_analysis.column_detection.confidence
      if strategy.approach = "table_extraction" then
        if cc ≥ 5 then s1 + 3/10 * ccf
        else if cc ≥ 3 then s1 + 2/10 * ccf
        else s1
      else if strategy.approach = "list_extraction" then
        if 2 ≤ cc ∧ cc ≤ 4 then s1 + 2/10 * ccf else s1
      else s1
    else s1
  let s3 :=
    if ¬ la.visual_analysis.error then
      let st := la.visual_analysis.structural_elements
      if strategy.approach = "table_extraction" then
        let a := if st.has_clear_grid then s2 + 2/10 else s2
        let b := if st.has_headers then a + 1/10 else a
        if st.alignment_quality = "high" then b + 1/10 else b
      else if strategy.approach = "list_extraction" then
        let a := if st.repetitive_patterns then s2 + 2/10 else s2
        if st.data_density = "medium" ∨ st.data_density = "high" then a + 1/10 else a
      else if strategy.approach = "form_extraction" then
        if la.visual_analysis.primary_layout = "FORM_FIELDS" then s2 + 3/10 else s2
      else s2
    else s2
  let s4 :=
    if ¬ la.content_analysis.error then
      let a :=
        if la.content_analysis.table_indicators.has_table_structure then
          let tc := la.content_analysis.table_indicators.table_confidence
          if strategy.approach = "table_extraction" then s3 + 2/10 * tc
          else if strategy.approach = "hybrid_extraction" then s3 + 1/10 * tc
          else s3
        else s3
      if la.content_analysis.product_indicators.has_product_structure
          ∧ (strategy.approach = "table_extraction" ∨ strategy.approach = "list_extraction") then
        a + 1/10
      else a
    else s3
  let s5 := s4 + calculate_complexity_bonus strategy la.visual_analysis
  let s6 :=
    match previous_results with
    | some prev => if ¬ prev.isEmpty ∧ page_number > 1 then
        s5 + calculate_consistency_bonus prev
      else s5
    | Option.none => s5
  max 0 (min 1 s6)

/-- `sum(history) / len(history)` (histories recorded by
`record_strategy_performance` are never empty). -/
def historyAvg (l : List ℚ) : ℚ := l.sum / (l.length : ℚ)

/-- `_apply_performance_history`: ±0.05 adjustment from the
cross-document per-strategy quality history. -/
def apply_performance_history (hist : List (String × List ℚ))
    (scores : List (String × ℚ)) : List (String × ℚ) :=
  scores.map (fun sc =>
    match lookupAssoc sc.1 hist with
    | some l =>
        if historyAvg l > 8/10 then (sc.1, sc.2 + 5/100)
        else if historyAvg l < 3/10 then (sc.1, sc.2 - 5/100)
        else sc
    | Option.none => sc)

/-- `max(adjusted_scores, key=adjusted_scores.get)`: first key attaining
the maximum, in insertion order. -/
def bestScoreName (scores : List (String × ℚ)) : String :=
  match scores with
  | [] => ""
  | h :: t => (t.foldl (fun b p => if p.2 > b.2 then p else b) h).1

/-- `select_strategy`: score every registered strategy, apply the
performance history, return the first best. -/
def select_strategy (hist : List (String × List ℚ)) (la : LayoutAnalysis)
    (page_number : ℕ) (previous_results : Option (List Py)) : ExtractionStrategy :=
  let scores := strategyRegistry.map (fun ns =>
    (ns.1, calculate_layout_based_score ns.2 la page_number previous_results))
  let adjusted := apply_performance_history hist scores
  match lookupAssoc (bestScoreName adjusted) strategyRegistry with
  | some s => s
  | Option.none => { name := "", confidence := 0, approach := "",
                     specific_instructions := [], fallback_strategy := Option.none }

/-- `record_strategy_performance`: append the sample and keep only the
last 10. -/
def record_strategy_performance (hist : List (String × List ℚ)) (name : String)
    (q : ℚ) : List (String × List ℚ) :=
  let old := (lookupAssoc name hist).getD []
  let appended := old ++ [q]
  let trimmed := if appended.length > 10 then appended.drop 1 else appended
  setAssoc name trimmed hist

/-- The page quality measured by `adapt_strategy_for_page`: 0 when the
result carries an `error` key or has no (truthy) products, otherwise
the fraction of complete products. -/
def adaptQuality (page_result : Py) : ℚ :=
  let products := page_result.getd "products" (Py.list [])
  if page_result.hasKey "error" then 0
  else if ¬ products.truthy then 0
  else (countComplete products : ℚ) / (products.pyLen : ℚ)

/-- `adapt_strategy_for_page`: records the quality sample, then switches
strategy exactly when quality < 0.3 (fixed fallback if present and
registered, else a fresh scorer pick); returns the updated performance
history together with `Option.none` for "keep current strategy". -/
def adapt_strategy_for_page (hist : List (String × List ℚ))
    (current_strategy : ExtractionStrategy) (page_result : Py)
    (page_number : ℕ) (la : LayoutAnalysis) :
    List (String × List ℚ) × Option ExtractionStrategy :=
  let quality := adaptQuality page_result
  let hist2 := record_strategy_performance hist current_strategy.name quality
  if quality < 3/10 then
    match current_strategy.fallback_strategy with
    | some fbName =>
        match lookupAssoc fbName strategyRegistry with
        | some fb => (hist2, some fb)
        | Option.none => (hist2, some (select_strategy hist2 la page_number Option.none))
    | Option.none => (hist2, some (select_strategy hist2 la page_number Option.none))
  else (hist2, Option.none)

/-- C2: strategy adaptation keeps the current strategy (returns no
change) exactly when the measured quality is at least 0.3 — including
at exactly 0.3 — and otherwise returns the current strategy's
registered fallback if present, else a fresh scorer selection; the
quality is 0 whenever the page result carries an error key or has no
truthy products. -/
theorem adapt_strategy_boundary (hist : List (String × List ℚ))
    (cur : ExtractionStrategy) (pr : Py) (n : ℕ) (la : LayoutAnalysis) :
    ((adapt_strategy_for_page hist cur pr n la).2 = Option.none ↔ 3/10 ≤ adaptQuality pr)
    ∧ (adaptQuality pr < 3/10 →
        (adapt_strategy_for_page hist cur pr n la).2 =
          some (match cur.fallback_strategy with
            | some fbName =>
                match lookupAssoc fbName strategyRegistry with
                | some fb => fb
                | Option.none => select_strategy
                    (record_strategy_performance hist cur.name (adaptQuality pr)) la n Option.none
            | Option.none => select_strategy
                (record_strategy_performance hist cur.name (adaptQuality pr)) la n Option.none))
    ∧ ((pr.hasKey "error" ∨ ¬ (pr.getd "products" (Py.list [])).truthy) →
        adaptQuality pr = 0) := by
  refine ⟨?_, ?_, ?_⟩
  · constructor
    · intro hnone
      by_contra hlt
      rw [not_le] at hlt
      unfold adapt_strategy_for_page at hnone
      simp only [if_pos hlt] at hnone
      rcases hfb : cur.fallback_strategy with _ | fbName
      · simp [hfb] at hnone
      · rcases hlk : lookupAssoc fbName strategyRegistry with _ | fb
        · simp [hfb, hlk] at hnone
        · simp [hfb, hlk] at hnone
    · intro hge
      unfold adapt_strategy_for_page
      simp [not_lt.mpr hge]
  · intro hlt
    unfold adapt_strategy_for_page
    simp only [if_pos hlt]
    rcases hfb : cur.fallback_strategy with _ | fbName
    · simp [hfb]
    · rcases hlk : lookupAssoc fbName strategyRegistry with _ | fb
      · simp [hfb, hlk]
      · simp [hfb, hlk]
  · intro hcase
    unfold adaptQuality
    rcases hcase with herr | hprod
    · simp [herr]
    · rcases h2 : (pr.getd "products" (Py.list [])).truthy with _ | _
      · simp [h2]
      · exact absurd h2 hprod

/-- A page result with 10 products of which exactly 3 are complete:
quality is exactly the 0.3 boundary. -/
def pageResultBoundary : Py :=
  Py.dict [("products", Py.list
    (List.replicate 3 (Py.dict [("name", Py.str "A"),
        ("colors", Py.list [Py.dict [("sizes", Py.list [Py.dict []])]])])
     ++ List.replicate 7 (Py.dict [("name", Py.str "A")])))]

/-- C2 witness: a page result with 10 products of which exactly 3 are
complete has quality exactly 0.3, and at that boundary the strategy is
kept (no change is returned). -/
theorem adapt_strategy_boundary_witness :
    (adapt_strategy_for_page []
        { name := "s", confidence := 1/2, approach := "x",
          specific_instructions := [], fallback_strategy := Option.none }
        pageResultBoundary 2 get_fallback_analysis).2 = Option.none := by
  apply (adapt_strategy_boundary []
    { name := "s", confidence := 1/2, approach := "x",
      specific_instructions := [], fallback_strategy := Option.none }
    pageResultBoundary 2 get_fallback_analysis).1.mpr
  have hk : pageResultBoundary.hasKey "error" = false := by decide
  have ht : (pageResultBoundary.getd "products" (Py.list [])).truthy = true := by decide
  have hc : countComplete (pageResultBoundary.getd "products" (Py.list [])) = 3 := by decide
  have hl : (pageResultBoundary.getd "products" (Py.list [])).pyLen = 10 := by decide
  unfold adaptQuality
  simp only [hk, ht, hc, hl]
  norm_num

/-! ## `app/utils/size_detection.py` — `SizeDetectionAgent` (used by claim C5) -/

/-- Numeric value of a digit string. -/
def natOfDigits (cs : List Char) : ℕ :=
  cs.foldl (fun acc c => acc * 10 + (c.toNat - 48)) 0

/-- `float()` on a string: optional sign, digits with an optional single
decimal point (exponent notation and the `nan`/`inf` words do not occur
in the pipeline's data and are outside the modelled scope). -/
def parseFloat (cs : List Char) : Option PyF :=
  let t := pyStrip cs
  let signAndRest : ℚ × List Char :=
    match t with
    | '+' :: r => (1, r)
    | '-' :: r => (-1, r)
    | r => (1, r)
  let sign := signAndRest.1
  let t2 := signAndRest.2
  let intPart := t2.takeWhile Char.isDigit
  match t2.drop intPart.length with
  | [] =>
      if intPart.isEmpty then Option.none
      else some (.fin (sign * (natOfDigits intPart : ℚ)))
  | '.' :: frac =>
      if frac.all Char.isDigit && (!intPart.isEmpty || !frac.isEmpty) then
        some (.fin (sign * ((natOfDigits intPart : ℚ)
          + (natOfDigits frac : ℚ) / ((10 : ℚ) ^ frac.length))))
      else Option.none
  | _ => Option.none

/-- `float(x)` for the value kinds that occur in size quantities:
numbers pass through, booleans become 0/1, numeric strings are parsed,
everything else raises (`Option.none`). -/
def pyFloatConv (x : Py) : Option PyF :=
  match x with
  | .num f => some f
  | .bool b => some (.fin (if b then 1 else 0))
  | .str s => parseFloat s.toList
  | _ => Option.none

/-- `x > 0` on a Python float (false for NaN and −∞). -/
def pyfGtZero : PyF → Bool
  | .fin q => decide (0 < q)
  | .inf => true
  | _ => false

/-- `x <= 0` on a Python float (false for NaN and +∞). -/
def pyfLeZero : PyF → Bool
  | .fin q => decide (q ≤ 0)
  | .ninf => true
  | _ => false

/-- Float addition with NaN/∞ propagation. -/
def pyfAdd : PyF → PyF → PyF
  | .nan, _ => .nan
  | _, .nan => .nan
  | .inf, .ninf => .nan
  | .ninf, .inf => .nan
  | .inf, _ => .inf
  | _, .inf => .inf
  | .ninf, _ => .ninf
  | _, .ninf => .ninf
  | .fin p, .fin q => .fin (p + q)

/-- `str` values pass through; the size fields flowing into the agent
are strings in every non-pathological input (a non-string would make
Python raise inside `detect_size_system`, failing the whole parse). -/
def asStr : Py → String
  | .str s => s
  | _ => ""

def euSizes : List String :=
  ["32", "34", "36", "38", "40", "42", "44", "46", "48", "50", "52", "54", "56", "58"]

def lettersSizes : List String :=
  ["XS", "S", "M", "L", "XL", "XXL", "XXXL", "2XL", "3XL"]

def pantsSizes : List String :=
  ["24", "25", "26", "27", "28", "29", "30", "31", "32", "33", "34", "35", "36"]

def mixedSizes : List String :=
  ["38/XS", "40/S", "42/M", "44/L", "46/XL", "48/XXL"]

/-- `^(3[2-9]|4[0-9]|5[0-8])$`. -/
def patternEU (s : String) : Bool :=
  match s.toList with
  | [c0, c1] =>
      (c0 = '3' && '2' ≤ c1 && c1 ≤ '9')
      || (c0 = '4' && '0' ≤ c1 && c1 ≤ '9')
      || (c0 = '5' && '0' ≤ c1 && c1 ≤ '8')
  | _ => false

/-- `^(XS|S|M|L|XL|XXL|XXXL|2XL|3XL)$`. -/
def patternLetters (s : String) : Bool := lettersSizes.contains s

/-- `^(2[4-9]|3[0-6])$`. -/
def patternPants (s : String) : Bool :=
  match s.toList with
  | [c0, c1] =>
      (c0 = '2' && '4' ≤ c1 && c1 ≤ '9')
      || (c0 = '3' && '0' ≤ c1 && c1 ≤ '6')
  | _ => false

/-- `^(38/XS|40/S|42/M|44/L|46/XL|48/XXL)$`. -/
def patternMixed (s : String) : Bool := mixedSizes.contains s

/-- `_normalize_size`: strip, uppercase, and remove leading zeros from
all-digit sizes (`str(int(s))`). -/
def normalize_size (size : String) : String :=
  if size = "" then ""
  else
    let n := (pyStrip size.toList).map Char.toUpper
    if !n.isEmpty && n.all Char.isDigit then
      String.mk (match n.dropWhile (fun c => c = '0') with
        | [] => ['0']
        | r => r)
    else String.mk n

/-- First pair attaining the maximal value (Python `max` over a dict in
insertion order). -/
def firstMaxPair (l : List (String × ℚ)) : String × ℚ :=
  match l with
  | [] => ("", 0)
  | h :: t => t.foldl (fun b p => if p.2 > b.2 then p else b) h

/-- `detect_size_system`: score each size system by its fraction of
matching (cleaned) sizes; return the best system when it exceeds 0.6,
else `"unknown"`. -/
def detect_size_system (sizes_list : List String) : String :=
  if sizes_list.isEmpty then "unknown"
  else
    let clean_sizes := (sizes_list.filter
      (fun s => s ≠ "" && !(pyStrip s.toList).isEmpty)).map normalize_size
    if clean_sizes.length = 0 then "unknown"
    else
      let score := fun (pat : String → Bool) =>
        ((clean_sizes.filter pat).length : ℚ) / (clean_sizes.length : ℚ)
      let system_scores :=
        [("clothing_numeric_eu", score patternEU),
         ("clothing_letters", score patternLetters),
         ("pants_numeric", score patternPants),
         ("mixed_sizes", score patternMixed)]
      let best := firstMaxPair system_scores
      if best.2 > 6/10 then best.1 else "unknown"

def allValidSizes : List String := euSizes ++ lettersSizes ++ pantsSizes ++ mixedSizes

/-- `_is_valid_size_for_system`. -/
def is_valid_size_for_system (size system : String) : Bool :=
  if system = "unknown" then allValidSizes.contains size
  else if system = "clothing_numeric_eu" then patternEU size
  else if system = "clothing_letters" then patternLetters size
  else if system = "pants_numeric" then patternPants size
  else if system = "mixed_sizes" then patternMixed size
  else false

/-- The per-pair validation loop of `validate_size_quantity_mapping`
against an already-detected size system: keep exactly the pairs whose
normalised size fits the system and whose quantity converts to a number
strictly greater than 0, normalising each kept pair to
`{'size': …, 'quantity': …}`. -/
def validate_pairs_against (detected : String) (pairs : List Py) : List Py :=
  pairs.filterMap (fun pair =>
    let size := normalize_size (asStr (pair.getd "size" (Py.str "")))
    let quantity := pair.getd "quantity" (Py.num (.fin 0))
    if is_valid_size_for_system size detected then
      match (match quantity with
             | Py.none => some (PyF.fin 0)
             | q => pyFloatConv q) with
      | some f =>
          if pyfGtZero f then
            some (Py.dict [("size", Py.str size), ("quantity", Py.num f)])
          else Option.none
      | Option.none => Option.none
    else Option.none)

/-- `validate_size_quantity_mapping`: detect the size system over the
pair list, then run the validation loop against it. -/
def validate_size_quantity_mapping (size_quantity_pairs : List Py) : List Py :=
  if size_quantity_pairs.isEmpty then []
  else
    validate_pairs_against
      (detect_size_system
        (size_quantity_pairs.map (fun p => asStr (p.getd "size" (Py.str "")))))
      size_quantity_pairs

def letterOrder : List (String × ℕ) :=
  [("XS", 1), ("S", 2), ("M", 3), ("L", 4), ("XL", 5), ("XXL", 6), ("XXXL", 7),
   ("2XL", 5), ("3XL", 7)]

/-- `_get_size_sort_key` (Python tuples compare lexicographically; the
string component only ever decides within the fallback group 3). -/
def size_sort_key (size : String) : ℕ × ℕ × String :=
  match lookupAssoc size letterOrder with
  | some r => (0, r, "")
  | Option.none =>
      if !size.toList.isEmpty && size.toList.all Char.isDigit then
        (1, natOfDigits size.toList, "")
      else
        match splitAtSub ['/'] size.toList with
        | some (p0, _) =>
            if !p0.isEmpty && p0.all Char.isDigit then (2, natOfDigits p0, "")
            else (3, 0, size)
        | Option.none => (3, 0, size)

def keyLe (a b : ℕ × ℕ × String) : Bool :=
  decide (a.1 < b.1) ||
    (decide (a.1 = b.1) &&
      (decide (a.2.1 < b.2.1) ||
        (decide (a.2.1 = b.2.1) && decide (a.2.2 ≤ b.2.2))))

/-- Stable insertion: `x` goes after every element that compares `≤ x`
(list sort in Python is stable). -/
def insertSortedBy {α : Type} (le : α → α → Bool) (x : α) : List α → List α
  | [] => [x]
  | y :: ys => if le y x then y :: insertSortedBy le x ys else x :: y :: ys

def stableSortBy {α : Type} (le : α → α → Bool) : List α → List α
  | [] => []
  | x :: xs => insertSortedBy le x (stableSortBy le xs)

/-- `normalize_size_extraction`: validate the pairs, then sort them by
the size key. -/
def normalize_size_extraction (extracted_sizes : List Py) (_category : String) : List Py :=
  if extracted_sizes.isEmpty then []
  else
    stableSortBy
      (fun a b => keyLe (size_sort_key (asStr (a.get "size")))
        (size_sort_key (asStr (b.get "size"))))
      (validate_size_quantity_mapping extracted_sizes)

/-! ## `app/extractors/extraction_agent.py` — post-parse cleanup of
`_extract_and_clean_json` (claim C5)

Only the cleanup applied to the already-parsed result is modelled here
(lines 666–782 of the source); the surrounding fenced-block /
brace-candidate extraction mirrors the recovery chain already embedded
above. -/

/-- One size entry: kept only when it is a dict with both `size` and
`quantity` keys and a numeric quantity strictly greater than 0 (the
`int(quantity) if quantity.is_integer() else quantity` step is the
identity in the merged numeric model). -/
def cleanSizeEntry (size : Py) : Option Py :=
  match size with
  | Py.dict kvs =>
      if (Py.dict kvs).hasKey "size" && (Py.dict kvs).hasKey "quantity" then
        match pyFloatConv ((Py.dict kvs).get "quantity") with
        | some f =>
            if pyfLeZero f then Option.none
            else some ((Py.dict kvs).set "quantity" (Py.num f))
        | Option.none => Option.none
      else Option.none
  | _ => Option.none

/-- `if field not in d: d[field] = default`. -/
def ensureKey (x : Py) (k : String) (dflt : Py) : Py :=
  if !x.hasKey k then x.set k dflt else x

/-- `if d.get(field) is None: d[field] = repl`. -/
def coerceNoneKey (x : Py) (k : String) (repl : Py) : Py :=
  if x.get k matches Py.none then x.set k repl else x

/-- Color cleanup after the field-ensuring step: clean the size list,
normalise it through the size-detection agent, and keep the color only
when at least one size survives.  Colors whose `sizes` is not a list
are dropped. -/
def cleanColorCore (category : String) (c2 : Py) : Option Py :=
  match c2.get "sizes" with
  | Py.list sizes =>
      if (normalize_size_extraction (sizes.filterMap cleanSizeEntry) category).isEmpty then
        Option.none
      else
        some (c2.set "sizes"
          (Py.list (normalize_size_extraction (sizes.filterMap cleanSizeEntry) category)))
  | _ => Option.none

/-- One color of the cleanup loop: non-dict colors are dropped;
`color_code`/`sizes` are ensured before the size cleanup. -/
def cleanColor (category : String) (color : Py) : Option Py :=
  match color with
  | Py.dict kvs0 =>
      cleanColorCore category
        (ensureKey (ensureKey (Py.dict kvs0) "color_code" Py.none) "sizes" (Py.list []))
  | _ => Option.none

/-- `float()`-coercion of one price field of a color (`None` on
conversion failure, untouched when absent or already `None`). -/
def floatifyField (c : Py) (field : String) : Py :=
  if c.hasKey field && !(c.get field matches Py.none) then
    match pyFloatConv (c.get field) with
    | some f => c.set field (Py.num f)
    | Option.none => c.set field Py.none
  else c

/-- `float()`-coercion of the `unit_price`, `sales_price` and `subtotal`
fields of a color. -/
def floatifyPriceFields (color : Py) : Py :=
  ["unit_price", "sales_price", "subtotal"].foldl floatifyField color

/-- Sum of the non-`None` `subtotal` values of the (already price-
coerced) colors, as `total_price`; `None` when no color carries one. -/
def totalFromSubtotals (colors : List Py) : Py :=
  let subtotals := colors.filterMap (fun c =>
    match c.get "subtotal" with
    | Py.none => Option.none
    | Py.num f => some f
    | _ => some (.fin 0))
  match subtotals with
  | [] => Py.none
  | _ => Py.num (subtotals.foldl pyfAdd (.fin 0))

/-- The `total_price` fill-in: recompute from the color subtotals when
absent or `None`, otherwise `float()`-coerce the existing value. -/
def setTotalPrice (p6 : Py) (priced_colors : List Py) : Py :=
  if !p6.hasKey "total_price" || (p6.get "total_price" matches Py.none) then
    p6.set "total_price" (totalFromSubtotals priced_colors)
  else
    match pyFloatConv (p6.get "total_price") with
    | some f => p6.set "total_price" (Py.num f)
    | Option.none => p6.set "total_price" Py.none

/-- Product cleanup after the field-ensuring step: clean every color,
drop the product when no color survives or `colors` is not a list,
coerce the price fields of the surviving colors, and fill in
`total_price`. -/
def cleanProductCore (p5 : Py) : Option Py :=
  match p5.get "colors" with
  | Py.list colors =>
      if (colors.filterMap (cleanColor (asStr (p5.getd "category" (Py.str ""))))).isEmpty then
        Option.none
      else
        some (setTotalPrice
          (p5.set "colors" (Py.list
            ((colors.filterMap (cleanColor (asStr (p5.getd "category" (Py.str ""))))).map
              floatifyPriceFields)))
          ((colors.filterMap (cleanColor (asStr (p5.getd "category" (Py.str ""))))).map
            floatifyPriceFields))
  | _ => Option.none

/-- One product of the cleanup loop: non-dict products are dropped;
`name`/`material_code`/`colors` are ensured and `None` names and codes
coerced to `""` before the color cleanup. -/
def cleanProduct (product : Py) : Option Py :=
  match product with
  | Py.dict kvs0 =>
      cleanProductCore
        (coerceNoneKey (coerceNoneKey
          (ensureKey (ensureKey (ensureKey (Py.dict kvs0) "name" Py.none)
            "material_code" Py.none) "colors" (Py.list []))
          "name" (Py.str "")) "material_code" (Py.str ""))
  | _ => Option.none

/-- The product-cleaning loop of `_extract_and_clean_json`. -/
def cleanProducts (products : List Py) : List Py :=
  products.filterMap cleanProduct

/-! ### Claim C5: the retained-color invariant -/

/-- A size entry as produced by `validate_size_quantity_mapping`:
a `{'size': …, 'quantity': …}` dict with quantity strictly positive. -/
def GoodSizeEntry (e : Py) : Prop :=
  ∃ s f, e = Py.dict [("size", Py.str s), ("quantity", Py.num f)] ∧ pyfGtZero f = true

/-- A retained color: a non-empty `sizes` list all of whose entries are
good (so in particular at least one `SizeQuantity` with quantity > 0). -/
def GoodColor (c : Py) : Prop :=
  ∃ ss, c.get "sizes" = Py.list ss ∧ ss ≠ [] ∧ ∀ e ∈ ss, GoodSizeEntry e

theorem Py.set_isDict {x : Py} (k : String) (v : Py) (h : x.isDict = true) :
    (x.set k v).isDict = true := by
  cases x <;> simp_all [Py.isDict, Py.set]

theorem Py.get_set_eq_dict {x : Py} (k : String) (v : Py) (h : x.isDict = true) :
    (x.set k v).get k = v := by
  cases x <;> simp_all [Py.isDict]
  exact Py.get_set_eq _ _ _

theorem Py.get_set_ne_any (x : Py) (k k2 : String) (v : Py) (hne : k ≠ k2) :
    (x.set k v).get k2 = x.get k2 := by
  cases x with
  | dict kvs => exact Py.get_set_ne kvs k k2 v hne
  | _ => rfl

theorem validate_pairs_against_mem (detected : String) (pairs : List Py) (p : Py)
    (hp : p ∈ validate_pairs_against detected pairs) : GoodSizeEntry p := by
  unfold validate_pairs_against at hp
  rw [List.mem_filterMap] at hp
  obtain ⟨a, _, hfa⟩ := hp
  simp only at hfa
  split at hfa
  · split at hfa
    · split at hfa
      · rename_i f _ hgt
        exact ⟨_, f, by injection hfa with h; exact h.symm, hgt⟩
      · exact absurd hfa (by simp)
    · exact absurd hfa (by simp)
  · exact absurd hfa (by simp)

theorem validate_size_quantity_mapping_mem (pairs : List Py) (p : Py)
    (hp : p ∈ validate_size_quantity_mapping pairs) : GoodSizeEntry p := by
  unfold validate_size_quantity_mapping at hp
  split at hp
  · simp at hp
  · exact validate_pairs_against_mem _ _ _ hp

theorem insertSortedBy_mem {α : Type} (le : α → α → Bool) (y : α) (l : List α) (x : α) :
    x ∈ insertSortedBy le y l ↔ x = y ∨ x ∈ l := by
  induction l with
  | nil => simp [insertSortedBy]
  | cons z zs ih =>
      rw [insertSortedBy]
      by_cases h : le z y
      · rw [if_pos h]
        rw [List.mem_cons, ih, List.mem_cons]
        tauto
      · rw [if_neg (by simpa using h)]
        rw [List.mem_cons]

theorem stableSortBy_mem {α : Type} (le : α → α → Bool) (l : List α) (x : α) :
    x ∈ stableSortBy le l ↔ x ∈ l := by
  induction l with
  | nil => simp [stableSortBy]
  | cons z zs ih =>
      simp [stableSortBy, insertSortedBy_mem, ih]

theorem normalize_size_extraction_mem (ex : List Py) (cat : String) (p : Py)
    (hp : p ∈ normalize_size_extraction ex cat) : GoodSizeEntry p := by
  unfold normalize_size_extraction at hp
  split at hp
  · simp at hp
  · rw [stableSortBy_mem] at hp
    exact validate_size_quantity_mapping_mem ex p hp

theorem ensureKey_isDict {x : Py} (k : String) (dflt : Py) (h : x.isDict = true) :
    (ensureKey x k dflt).isDict = true := by
  unfold ensureKey
  split
  · exact Py.set_isDict _ _ h
  · exact h

theorem coerceNoneKey_isDict {x : Py} (k : String) (repl : Py) (h : x.isDict = true) :
    (coerceNoneKey x k repl).isDict = true := by
  unfold coerceNoneKey
  split
  · exact Py.set_isDict _ _ h
  · exact h

theorem cleanColorCore_good (cat : String) (c2 c : Py) (hd : c2.isDict = true)
    (h : cleanColorCore cat c2 = some c) : GoodColor c := by
  unfold cleanColorCore at h
  split at h
  case h_2 => exact absurd h (by simp)
  case h_1 sizes hsz =>
    split at h
    · exact absurd h (by simp)
    · rename_i hne
      injection h with h2
      refine ⟨normalize_size_extraction (sizes.filterMap cleanSizeEntry) cat, ?_, ?_, ?_⟩
      · rw [← h2]
        exact Py.get_set_eq_dict _ _ hd
      · simpa [List.isEmpty_iff] using hne
      · exact fun e he => normalize_size_extraction_mem _ _ _ he

theorem cleanColor_good (cat : String) (color c : Py)
    (h : cleanColor cat color = some c) : GoodColor c := by
  unfold cleanColor at h
  split at h
  case h_2 => exact absurd h (by simp)
  case h_1 kvs0 =>
    exact cleanColorCore_good cat _ c
      (ensureKey_isDict _ _ (ensureKey_isDict _ _
        (show (Py.dict kvs0).isDict = true from rfl))) h

theorem floatifyField_get_ne (c : Py) (field k : String) (h : field ≠ k) :
    (floatifyField c field).get k = c.get k := by
  unfold floatifyField
  split
  · split
    · exact Py.get_set_ne_any _ _ _ _ h
    · exact Py.get_set_ne_any _ _ _ _ h
  · rfl

theorem floatifyPriceFields_get_sizes (c : Py) :
    (floatifyPriceFields c).get "sizes" = c.get "sizes" := by
  unfold floatifyPriceFields
  simp only [List.foldl_cons, List.foldl_nil]
  rw [floatifyField_get_ne _ _ _ (by decide),
    floatifyField_get_ne _ _ _ (by decide),
    floatifyField_get_ne _ _ _ (by decide)]

theorem setTotalPrice_get_colors (p6 : Py) (priced : List Py) :
    (setTotalPrice p6 priced).get "colors" = p6.get "colors" := by
  unfold setTotalPrice
  split
  · exact Py.get_set_ne_any _ _ _ _ (by decide)
  · split
    · exact Py.get_set_ne_any _ _ _ _ (by decide)
    · exact Py.get_set_ne_any _ _ _ _ (by decide)

theorem cleanProductCore_good (p5 q : Py) (hd : p5.isDict = true)
    (h : cleanProductCore p5 = some q) :
    ∃ cs, q.get "colors" = Py.list cs ∧ cs ≠ [] ∧ ∀ c ∈ cs, GoodColor c := by
  unfold cleanProductCore at h
  split at h
  case h_2 => exact absurd h (by simp)
  case h_1 colors hcol =>
    split at h
    · exact absurd h (by simp)
    · rename_i hne
      injection h with h2
      refine ⟨(colors.filterMap
          (cleanColor (asStr (p5.getd "category" (Py.str ""))))).map floatifyPriceFields,
        ?_, ?_, ?_⟩
      · rw [← h2, setTotalPrice_get_colors]
        exact Py.get_set_eq_dict _ _ hd
      · simp only [ne_eq, List.map_eq_nil_iff]
        simpa [List.isEmpty_iff] using hne
      · intro c hc
        rw [List.mem_map] at hc
        obtain ⟨c0, hc0, rfl⟩ := hc
        rw [List.mem_filterMap] at hc0
        obtain ⟨raw, _, hraw⟩ := hc0
        obtain ⟨ss, hss, hssne, hgood⟩ := cleanColor_good _ _ _ hraw
        exact ⟨ss, by rw [floatifyPriceFields_get_sizes]; exact hss, hssne, hgood⟩

theorem cleanProduct_good (product q : Py) (h : cleanProduct product = some q) :
    ∃ cs, q.get "colors" = Py.list cs ∧ cs ≠ [] ∧ ∀ c ∈ cs, GoodColor c := by
  unfold cleanProduct at h
  split at h
  case h_2 => exact absurd h (by simp)
  case h_1 kvs0 =>
    exact cleanProductCore_good _ q
      (coerceNoneKey_isDict _ _ (coerceNoneKey_isDict _ _
        (ensureKey_isDict _ _ (ensureKey_isDict _ _ (ensureKey_isDict _ _
          (show (Py.dict kvs0).isDict = true from rfl)))))) h

/-- C5: every `ColorVariant` retained by the post-parse cleanup has at
least one `SizeQuantity` with quantity > 0 — size entries with
non-positive or non-numeric quantity are dropped, colors left with no
valid size are dropped, and products left with no valid color are
dropped, so every product in the cleaned output has a non-empty colors
list whose colors each carry a non-empty sizes list of positive-
quantity entries. -/
theorem cleanProducts_color_invariant (products : List Py) (q : Py)
    (hq : q ∈ cleanProducts products) :
    ∃ cs, q.get "colors" = Py.list cs ∧ cs ≠ [] ∧
      ∀ c ∈ cs, ∃ ss, c.get "sizes" = Py.list ss ∧ ss ≠ [] ∧
        ∃ e ∈ ss, ∃ s f, e = Py.dict [("size", Py.str s), ("quantity", Py.num f)]
          ∧ pyfGtZero f = true := by
  unfold cleanProducts at hq
  rw [List.mem_filterMap] at hq
  obtain ⟨p, _, hp⟩ := hq
  obtain ⟨cs, hcs, hcsne, hgood⟩ := cleanProduct_good p q hp
  refine ⟨cs, hcs, hcsne, fun c hc => ?_⟩
  obtain ⟨ss, hss, hssne, hentries⟩ := hgood c hc
  obtain ⟨e, he⟩ := List.exists_mem_of_ne_nil ss hssne
  obtain ⟨s, f, hef, hf⟩ := hentries e he
  exact ⟨ss, hss, hssne, e, he, s, f, hef, hf⟩

/-- Scenario A size entry `S: 1`. -/
def sizeS : Py := Py.dict [("size", Py.str "S"), ("quantity", Py.num (.fin 1))]

/-- Scenario A size entry `M: 0`. -/
def sizeM0 : Py := Py.dict [("size", Py.str "M"), ("quantity", Py.num (.fin 0))]

/-- Scenario A color: one color with sizes `[S: 1, M: 0]`. -/
def colorA : Py := Py.dict [("color_code", Py.str "001"), ("sizes", Py.list [sizeS, sizeM0])]

/-- Scenario A product. -/
def productA : Py :=
  Py.dict [("name", Py.str "CAMISA"), ("material_code", Py.str "CF100"),
    ("colors", Py.list [colorA])]

/-- The cleaned scenario A color: only `S: 1` survives. -/
def colorAClean : Py := Py.dict [("color_code", Py.str "001"), ("sizes", Py.list [sizeS])]

/-- The cleaned scenario A product. -/
def productAClean : Py :=
  Py.dict [("name", Py.str "CAMISA"), ("material_code", Py.str "CF100"),
    ("colors", Py.list [colorAClean]), ("total_price", Py.none)]

theorem detect_size_system_single_S : detect_size_system ["S"] = "clothing_letters" := by
  show (if (firstMaxPair
      [("clothing_numeric_eu", ((0:ℕ):ℚ) / ((1:ℕ):ℚ)),
       ("clothing_letters", ((1:ℕ):ℚ) / ((1:ℕ):ℚ)),
       ("pants_numeric", ((0:ℕ):ℚ) / ((1:ℕ):ℚ)),
       ("mixed_sizes", ((0:ℕ):ℚ) / ((1:ℕ):ℚ))]).2 > 6/10 then
      (firstMaxPair
      [("clothing_numeric_eu", ((0:ℕ):ℚ) / ((1:ℕ):ℚ)),
       ("clothing_letters", ((1:ℕ):ℚ) / ((1:ℕ):ℚ)),
       ("pants_numeric", ((0:ℕ):ℚ) / ((1:ℕ):ℚ)),
       ("mixed_sizes", ((0:ℕ):ℚ) / ((1:ℕ):ℚ))]).1 else "unknown") = "clothing_letters"
  norm_num [firstMaxPair]

/-- C5 witness (Scenario A): a single product with one color carrying
sizes `[S: 1, M: 0]` cleans to the same product keeping only `S: 1`
(with the derived `total_price`), and the cleaned product satisfies the
retained-color invariant. -/
theorem cleanProducts_color_invariant_witness :
    cleanProducts [productA] = [productAClean]
    ∧ ∃ cs, productAClean.get "colors" = Py.list cs ∧ cs ≠ [] ∧
        ∀ c ∈ cs, ∃ ss, c.get "sizes" = Py.list ss ∧ ss ≠ [] ∧
          ∃ e ∈ ss, ∃ s f, e = Py.dict [("size", Py.str s), ("quantity", Py.num f)]
            ∧ pyfGtZero f = true := by
  have hval : validate_size_quantity_mapping [sizeS] = [sizeS] := by
    rw [show validate_size_quantity_mapping [sizeS]
        = validate_pairs_against (detect_size_system ["S"]) [sizeS] from rfl,
      detect_size_system_single_S]
    rfl
  have hnorm : normalize_size_extraction ([sizeS, sizeM0].filterMap cleanSizeEntry) ""
      = [sizeS] := by
    rw [show ([sizeS, sizeM0].filterMap cleanSizeEntry) = [sizeS] from rfl]
    rw [show normalize_size_extraction [sizeS] ""
        = stableSortBy (fun a b => keyLe (size_sort_key (asStr (a.get "size")))
            (size_sort_key (asStr (b.get "size"))))
          (validate_size_quantity_mapping [sizeS]) from rfl]
    rw [hval]
    rfl
  have hcolor : cleanColor "" colorA = some colorAClean := by
    rw [show cleanColor "" colorA
        = (if (normalize_size_extraction ([sizeS, sizeM0].filterMap cleanSizeEntry) "").isEmpty
              = true then Option.none
           else some (colorA.set "sizes"
             (Py.list (normalize_size_extraction
               ([sizeS, sizeM0].filterMap cleanSizeEntry) "")))) from rfl]
    rw [hnorm]
    rfl
  have hprod : cleanProduct productA = some productAClean := by
    have hfmc : [colorA].filterMap
        (cleanColor (asStr (productA.getd "category" (Py.str "")))) = [colorAClean] := by
      rw [show (cleanColor (asStr (productA.getd "category" (Py.str "")))) = cleanColor ""
          from rfl]
      simp [List.filterMap_cons, hcolor]
    rw [show cleanProduct productA
        = (if ([colorA].filterMap
              (cleanColor (asStr (productA.getd "category" (Py.str ""))))).isEmpty = true
           then Option.none
           else some (setTotalPrice
             (productA.set "colors" (Py.list
               (([colorA].filterMap
                 (cleanColor (asStr (productA.getd "category" (Py.str ""))))).map
                   floatifyPriceFields)))
             (([colorA].filterMap
               (cleanColor (asStr (productA.getd "category" (Py.str ""))))).map
                 floatifyPriceFields))) from rfl]
    rw [hfmc]
    rfl
  have hEval : cleanProducts [productA] = [productAClean] := by
    unfold cleanProducts
    simp [List.filterMap_cons, hprod]
  refine ⟨hEval, cleanProducts_color_invariant [productA] productAClean ?_⟩
  rw [hEval]
  exact List.mem_singleton.mpr rfl

/-! ## `app/extractors/gemini_extractor.py` — `_post_process_products`
(claims C1 and C8)

The consolidator runs over the concatenated per-page product dicts.
Its external collaborators live in modules that are not part of the
core source (`app/data/reference_data.py`, `app/utils/supplier_assignment.py`,
`app/utils/barcode_generator.py`): the reference tables are parameters
of the embedding (`PostContext`), and the two list-transforming helpers
are modelled from the spec below. -/

/-- `str.upper()`. -/
def upperStr (s : String) : String := String.mk (s.toList.map Char.toUpper)

/-- The character class `[A-Za-z\s]` of the name-cleaning regex. -/
def nameCL (c : Char) : Bool := c.isAlpha || isPySpace c

/-- `re.match(r'^([A-Za-z\s]+)(?:\s+\d+.*)?$', name)`: the greedy group
1 when the regex matches.  The regex matches iff the maximal
`[A-Za-z\s]` prefix is non-empty and either covers the whole string, or
is followed by a digit with at least one whitespace character before it
(given back by the greedy group to feed `\s+`, keeping group 1
non-empty). -/
def nameCleanMatch? (cs : List Char) : Option (List Char) :=
  let p := cs.takeWhile nameCL
  let rest := cs.drop p.length
  if p.isEmpty then Option.none
  else
    match rest with
    | [] => some p
    | d :: _ =>
        if d.isDigit then
          match p.getLast? with
          | some c =>
              if isPySpace c && p.length ≥ 2 then some p.dropLast else Option.none
          | Option.none => Option.none
        else Option.none

/-- `re.sub(r'\d+', '', …)`. -/
def removeDigits (cs : List Char) : List Char := cs.filter (fun c => !c.isDigit)

/-- `re.sub(r'\s+', ' ', …)`: collapse whitespace runs to one space. -/
def collapseWsAux : Nat → List Char → List Char
  | 0, s => s
  | _, [] => []
  | fuel + 1, c :: rest =>
      if isPySpace c then ' ' :: collapseWsAux fuel (rest.dropWhile isPySpace)
      else c :: collapseWsAux fuel rest

def collapseWs (cs : List Char) : List Char := collapseWsAux (cs.length + 1) cs

/-- The name cleanup of `_post_process_products`: the matched group
stripped, or (no match) digits removed and whitespace collapsed. -/
def clean_product_name (name : String) : String :=
  match nameCleanMatch? name.toList with
  | some g => String.mk (pyStrip g)
  | Option.none =>
      String.mk (pyStrip (collapseWs (pyStrip (removeDigits name.toList))))

/-- `term in s` for each keyword. -/
def containsAnyTerm (s : String) (terms : List String) : Bool :=
  terms.any (fun t => containsSub t.toList s.toList)

/-- The category normalisation: POLO/SWEATER keyword buckets, then a
bidirectional substring match against the `CATEGORIES` vocabulary,
falling back to `"ACESSÓRIOS"`. -/
def normalize_category (categories : List String) (original_category : String) : String :=
  let category_upper := if original_category ≠ "" then upperStr original_category else ""
  if containsAnyTerm category_upper ["POLO", "POLOSHIRT"] then "POLOS"
  else if containsAnyTerm category_upper ["SWEATER", "SWEAT", "MALHA", "JERSEY"] then "MALHAS"
  else
    match categories.find? (fun category =>
        containsSub category.toList category_upper.toList
          || containsSub category_upper.toList category.toList) with
    | some category => category
    | Option.none => "ACESSÓRIOS"

/-- Python `==` (and hash-key identity) restricted to the hashable
primitives that occur as material and color codes; containers (which
Python would refuse to hash, aborting the whole post-process) compare
`false`, and the `True == 1` cross-type equality is outside the
modelled scope. -/
def pyKeyEq : Py → Py → Bool
  | .str a, .str b => a == b
  | .num a, .num b => a == b
  | .bool a, .bool b => a == b
  | .none, .none => true
  | _, _ => false

/-- The values on which `pyKeyEq` is genuine equality. -/
def isPrimKey : Py → Bool
  | .str _ => true
  | .num _ => true
  | .bool _ => true
  | .none => true
  | _ => false

/-- A list value, `[]` otherwise (Python would raise iterating
non-iterables on these paths, discarding the whole result). -/
def asList : Py → List Py
  | .list xs => xs
  | _ => []

/-- `quantity <= 0` for the quantity kinds that occur (a non-numeric
quantity raises in Python, discarding the whole result). -/
def pyLeZeroNum : Py → Bool
  | .num f => pyfLeZero f
  | .bool b => !b
  | _ => false

/-- Numeric coercion for `sum()` over subtotals (non-numeric subtotals
raise in Python, discarding the whole result). -/
def pyfOfPy : Py → PyF
  | .num f => f
  | .bool b => .fin (if b then 1 else 0)
  | _ => .fin 0

/-- The color-variant merge of a later same-`material_code` occurrence:
starting from the canonical product's color-code set, append exactly
the new colors whose (truthy) `color_code` is not already present,
first-seen wins. -/
def mergeColorsAux : List Py → List Py → List Py
  | _, [] => []
  | codes, color :: rest =>
      let cd := color.get "color_code"
      if cd.truthy && !codes.any (pyKeyEq cd) then
        color :: mergeColorsAux (codes ++ [cd]) rest
      else mergeColorsAux codes rest

def mergeColors (existingColors newColors : List Py) : List Py :=
  existingColors ++ mergeColorsAux (existingColors.map (fun c => c.get "color_code")) newColors

/-- The subtotal values present on a color set
(`[c.get("subtotal", 0) for c in colors if c.get("subtotal") is not None]`). -/
def subtotalsOf (colors : List Py) : List Py :=
  colors.filterMap (fun c =>
    match c.get "subtotal" with
    | Py.none => Option.none
    | v => some v)

/-- Merging one later occurrence into the canonical product: merge the
color variants and recompute `total_price` as the sum of the subtotals
over the merged color set (`None` when no color carries one).  A
canonical product without a `colors` key would make Python raise
(`KeyError` on the in-place append); the caller catches that and
discards the whole result, so the model reads it as an empty list. -/
def mergeProduct (existing newProduct : Py) : Py :=
  let merged := mergeColors (asList (existing.getd "colors" (Py.list [])))
    (asList (newProduct.getd "colors" (Py.list [])))
  let withCols := existing.set "colors" (Py.list merged)
  withCols.set "total_price"
    (match subtotalsOf merged with
     | [] => Py.none
     | l => Py.num (l.foldl (fun acc v => pyfAdd acc (pyfOfPy v)) (.fin 0)))

/-- Merge the new occurrence into the first processed product carrying
the same material code (the source `break`s after the first). -/
def mergeIntoProcessed (mc : Py) (newProduct : Py) : List Py → List Py
  | [] => []
  | p :: rest =>
      if pyKeyEq (p.get "material_code") mc then mergeProduct p newProduct :: rest
      else p :: mergeIntoProcessed mc newProduct rest

/-- One reference entry, in source key order. -/
def refDict (mc : Py) (pname : String) (n : ℕ) (t : Py × Py × Py × Py) : Py :=
  Py.dict
    [("reference", Py.str (asStr mc ++ "." ++ toString n)),
     ("counter", Py.num (.fin (n : ℚ))),
     ("color_code", t.1),
     ("color_name", t.2.1),
     ("size", t.2.2.1),
     ("quantity", t.2.2.2),
     ("description", Py.str (pname ++ "[" ++ asStr t.1 ++ "/" ++ asStr t.2.2.1 ++ "]"))]

/-- The per-size reference loop for one color: `quantity <= 0` entries
are skipped without advancing the counter. -/
def buildSizeRefs (mc : Py) (pname : String) (ccv cnv : Py) :
    ℕ → List Py → List Py × ℕ
  | counter, [] => ([], counter)
  | counter, sz :: rest =>
      let quantity := sz.getd "quantity" (Py.num (.fin 0))
      if pyLeZeroNum quantity then buildSizeRefs mc pname ccv cnv counter rest
      else
        let counter2 := counter + 1
        let r := refDict mc pname counter2
          (ccv, cnv, sz.getd "size" (Py.str ""), quantity)
        let (rs, final) := buildSizeRefs mc pname ccv cnv counter2 rest
        (r :: rs, final)

/-- The reference assignment over a product's colors (executed only
when the product is first seen). -/
def buildReferences (mc : Py) (pname : String) :
    ℕ → List Py → List Py × ℕ
  | counter, [] => ([], counter)
  | counter, color :: rest =>
      let (rs1, c1) := buildSizeRefs mc pname
        (color.getd "color_code" (Py.str "")) (color.getd "color_name" (Py.str ""))
        counter (asList (color.getd "sizes" (Py.list [])))
      let (rs2, c2) := buildReferences mc pname c1 rest
      (rs1 ++ rs2, c2)

/-- The reference-table inputs of the consolidator: the `CATEGORIES`
vocabulary, `determine_gender_by_brand`, the single document-wide
supplier/markup determined by `determine_best_supplier(context_info)`,
and the document brand from the context (all from modules outside the
core source). -/
structure PostContext where
  categories : List String
  gender_of : String → String
  supplier_name : String
  markup : ℚ
  original_brand : String

/-- The consolidator's loop state: processed products, the set of seen
material codes, and the per-material reference counters. -/
structure PPState where
  processed : List Py
  seen : List Py
  counters : List (Py × ℕ)

def lookupPyAssoc (k : Py) : List (Py × ℕ) → Option ℕ
  | [] => Option.none
  | kv :: rest => if pyKeyEq kv.1 k then some kv.2 else lookupPyAssoc k rest

def setPyAssoc (k : Py) (v : ℕ) : List (Py × ℕ) → List (Py × ℕ)
  | [] => [(k, v)]
  | kv :: rest => if pyKeyEq kv.1 k then (k, v) :: rest else kv :: setPyAssoc k v rest

/-- The name / brand / gender mutations applied to every product with a
truthy material code. -/
def prepareProduct (ctx : PostContext) (product : Py) : Py :=
  let pname := asStr (product.getd "name" (Py.str ""))
  let p1 := product.set "name" (Py.str (clean_product_name pname))
  let p2 := p1.set "name" (Py.str (upperStr (clean_product_name pname)))
  let p3 := if p2.hasKey "brand" then
      p2.set "brand" (Py.str (upperStr (asStr (p2.get "brand"))))
    else p2
  let product_brand :=
    if (p3.getd "brand" (Py.str "")).truthy then asStr (p3.getd "brand" (Py.str ""))
    else ctx.original_brand
  p3.set "gender" (Py.str (ctx.gender_of product_brand))

/-- The initial `has_valid_data` scan over the colors structure. -/
def hasValidColorData (p : Py) : Bool :=
  p.hasKey "colors" && (p.get "colors").isList && decide (0 < (p.get "colors").pyLen) &&
    (asList (p.get "colors")).any (fun color =>
      color.isDict &&
        ((color.hasKey "sizes" && (color.get "sizes").isList
            && decide (0 < (color.get "sizes").pyLen))
         || (color.get "color_code").truthy || (color.get "color_name").truthy))

/-- The fallback single-color structure created from product-level
color/size/quantity fields when the product has basic info but no
colors array. -/
def ensureColorStruct (p : Py) (has_valid_data has_basic_info : Bool) : Py × Bool :=
  if !has_valid_data && has_basic_info then
    if !p.hasKey "colors" || !(p.get "colors").truthy then
      if ["color_code", "color_name", "sizes", "quantity"].any p.hasKey then
        let entry := Py.dict
          [("color_code", p.getd "color_code" (Py.str "000")),
           ("color_name", p.getd "color_name" (Py.str "Cor Única")),
           ("sizes",
             if p.hasKey "sizes" && (p.get "sizes").isList then p.get "sizes"
             else if p.hasKey "quantity" then
               Py.list [Py.dict [("size", p.getd "size" (Py.str "UNICO")),
                 ("quantity", p.getd "quantity" (Py.num (.fin 0)))]]
             else Py.list [])]
        (p.set "colors" (Py.list [entry]), true)
      else (p, has_valid_data)
    else (p, has_valid_data)
  else (p, has_valid_data)

/-- One iteration of the consolidation loop (`for idx, product in
enumerate(products)`). -/
def processOneProduct (ctx : PostContext) (st : PPState) (product : Py) : PPState :=
  let mc := product.get "material_code"
  if !mc.truthy then st
  else
    let pname := asStr (product.getd "name" (Py.str ""))
    let p4 := prepareProduct ctx product
    let has_basic_info := mc.truthy && decide (pname ≠ "")
    let structAndFlag := ensureColorStruct p4 (hasValidColorData p4) has_basic_info
    let p5 := structAndFlag.1
    let has_valid_data := structAndFlag.2
    if has_valid_data || has_basic_info then
      let p6 := p5.set "category"
        (Py.str (normalize_category ctx.categories (asStr (p5.getd "category" (Py.str "")))))
      if st.seen.any (pyKeyEq mc) then
        { st with processed := mergeIntoProcessed mc p6 st.processed }
      else
        let counters0 :=
          if (lookupPyAssoc mc st.counters).isNone then setPyAssoc mc 0 st.counters
          else st.counters
        let start := (lookupPyAssoc mc counters0).getD 0
        let built := buildReferences mc (asStr (p6.getd "name" (Py.str ""))) start
          (asList (p6.getd "colors" (Py.list [])))
        { processed := st.processed ++ [p6.set "references" (Py.list built.1)],
          seen := st.seen ++ [mc],
          counters := setPyAssoc mc built.2 counters0 }
    else st

/-- Modelled from the spec: `assign_supplier_to_products` lives in
`app/utils/supplier_assignment.py`, which is not part of the core
source.  Per the spec it applies "the single determined
supplier/markup/brand uniformly to every product/color/reference
(overwrite)", preserving the product list structure. -/
def assignSupplierOne (supplier : String) (markup : ℚ) (p : Py) : Py :=
  let p1 := (p.set "supplier" (Py.str supplier)).set "markup" (Py.num (.fin markup))
  let p2 :=
    match p1.get? "colors" with
    | some (Py.list cs) =>
        p1.set "colors" (Py.list (cs.map (fun (c : Py) =>
          (c.set "supplier" (Py.str supplier)).set "markup" (Py.num (.fin markup)))))
    | _ => p1
  match p2.get? "references" with
  | some (Py.list rs) =>
      p2.set "references" (Py.list (rs.map (fun (r : Py) =>
        (r.set "supplier" (Py.str supplier)).set "markup" (Py.num (.fin markup)))))
  | _ => p2

def assign_supplier_to_products (products : List Py) (supplier : String) (markup : ℚ) :
    List Py :=
  products.map (assignSupplierOne supplier markup)

/-- Modelled from the spec: `add_barcodes_to_products` lives in
`app/utils/barcode_generator.py`, which is not part of the core source.
Per the spec it is an "optional barcode assignment" whose failure is
non-fatal; it assigns a barcode to each product, preserving the list
structure. -/
def add_barcodes_to_products (products : List Py) : List Py :=
  products.map (fun p => p.set "barcode" (Py.str ""))

/-- The supplier/brand enforcement of ETAPA 3.5: force the determined
supplier onto the product, its colors and its references, and restore
the original brand when it is meaningful. -/
def force_supplier_fields (supplier brand : String) (p : Py) : Py :=
  let p1 := if brand ≠ "" && brand ≠ "Marca não identificada" then
      p.set "brand" (Py.str brand)
    else p
  let p2 := p1.set "supplier" (Py.str supplier)
  let p3 :=
    match p2.get? "colors" with
    | some (Py.list cs) =>
        p2.set "colors" (Py.list (cs.map (fun (c : Py) => c.set "supplier" (Py.str supplier))))
    | _ => p2
  match p3.get? "references" with
  | some (Py.list rs) =>
      p3.set "references" (Py.list (rs.map (fun (r : Py) => r.set "supplier" (Py.str supplier))))
  | _ => p3

/-- `_post_process_products` (the product list of the returned tuple;
the determined supplier name is `ctx.supplier_name`): consolidate all
per-page products, then apply the supplier uniformly, force the
supplier/brand fields, sort by material code and assign barcodes. -/
def post_process_products (ctx : PostContext) (products : List Py) : List Py :=
  let st := products.foldl (processOneProduct ctx) ⟨[], [], []⟩
  if st.processed.isEmpty then []
  else
    let withSupplier := assign_supplier_to_products st.processed ctx.supplier_name ctx.markup
    if withSupplier.isEmpty then []
    else
      let forced := withSupplier.map (force_supplier_fields ctx.supplier_name ctx.original_brand)
      let sorted := stableSortBy (fun a b =>
        decide (asStr (a.getd "material_code" (Py.str ""))
          ≤ asStr (b.getd "material_code" (Py.str "")))) forced
      add_barcodes_to_products sorted

/-! ### Claim C1: no duplicate material codes; merge semantics -/

theorem keyOf_mergeProduct (e n : Py) :
    (mergeProduct e n).get "material_code" = e.get "material_code" := by
  unfold mergeProduct
  rw [Py.get_set_ne_any _ _ _ _ (by decide), Py.get_set_ne_any _ _ _ _ (by decide)]

theorem mergeIntoProcessed_map_key (mc q : Py) (l : List Py) :
    (mergeIntoProcessed mc q l).map (fun p => p.get "material_code")
      = l.map (fun p => p.get "material_code") := by
  induction l with
  | nil => rfl
  | cons p rest ih =>
      unfold mergeIntoProcessed
      split
      · simp [keyOf_mergeProduct]
      · simp [ih]

theorem prepareProduct_key (ctx : PostContext) (product : Py) :
    (prepareProduct ctx product).get "material_code" = product.get "material_code" := by
  unfold prepareProduct
  rw [Py.get_set_ne_any _ _ _ _ (by decide)]
  split
  · rw [Py.get_set_ne_any _ _ _ _ (by decide), Py.get_set_ne_any _ _ _ _ (by decide),
      Py.get_set_ne_any _ _ _ _ (by decide)]
  · rw [Py.get_set_ne_any _ _ _ _ (by decide), Py.get_set_ne_any _ _ _ _ (by decide)]

theorem ensureColorStruct_fst_key (p : Py) (hv hb : Bool) :
    ((ensureColorStruct p hv hb).1).get "material_code" = p.get "material_code" := by
  unfold ensureColorStruct
  split
  · split
    · split
      · exact Py.get_set_ne_any _ _ _ _ (by decide)
      · rfl
    · rfl
  · rfl

theorem pyKeyEq_refl {k : Py} (h : isPrimKey k = true) : pyKeyEq k k = true := by
  cases k <;> simp_all [isPrimKey, pyKeyEq]

/-- The consolidation-loop invariant: processed material codes are
pairwise distinct and all recorded as seen. -/
def PPInv (st : PPState) : Prop :=
  (st.processed.map (fun p => p.get "material_code")).Nodup
  ∧ ∀ k ∈ st.processed.map (fun p => p.get "material_code"), st.seen.any (pyKeyEq k) = true

theorem p7_key (ctx : PostContext) (product : Py) (hv hb : Bool) (cv refsv : Py) :
    ((((ensureColorStruct (prepareProduct ctx product) hv hb).1).set "category" cv).set
      "references" refsv).get "material_code" = product.get "material_code" := by
  rw [Py.get_set_ne_any _ _ _ _ (by decide), Py.get_set_ne_any _ _ _ _ (by decide),
    ensureColorStruct_fst_key, prepareProduct_key]

theorem processOneProduct_inv (ctx : PostContext) (st : PPState) (product : Py)
    (hinv : PPInv st)
    (hk : (product.get "material_code").truthy = true →
      isPrimKey (product.get "material_code") = true) :
    PPInv (processOneProduct ctx st product) := by
  simp only [processOneProduct]
  split
  · exact hinv
  · rename_i htruthy
    rw [Bool.not_eq_true', Bool.not_eq_false] at htruthy
    split
    · split
      · refine ⟨?_, ?_⟩
        · rw [mergeIntoProcessed_map_key]
          exact hinv.1
        · intro k hkmem
          rw [mergeIntoProcessed_map_key] at hkmem
          exact hinv.2 k hkmem
      · rename_i hnotseen
        refine ⟨?_, ?_⟩
        · rw [List.map_append]
          simp only [List.map_cons, List.map_nil, p7_key]
          rw [List.nodup_append]
          refine ⟨hinv.1, List.nodup_singleton _, ?_⟩
          intro k hkmem
          simp only [List.mem_singleton]
          intro hEq
          rw [hEq] at hkmem
          have hseen := hinv.2 _ hkmem
          rw [Bool.not_eq_true] at hnotseen
          rw [hseen] at hnotseen
          exact absurd hnotseen (by simp)
        · intro k hkmem
          rw [List.map_append] at hkmem
          simp only [List.map_cons, List.map_nil, p7_key] at hkmem
          rw [List.mem_append] at hkmem
          rw [List.any_append]
          rcases hkmem with hold | hnew
          · rw [hinv.2 k hold]
            rfl
          · rw [List.mem_singleton] at hnew
            subst hnew
            have : pyKeyEq (product.get "material_code") (product.get "material_code")
                = true := pyKeyEq_refl (hk htruthy)
            simp [this]
    · exact hinv

theorem foldl_processOneProduct_inv (ctx : PostContext) (products : List Py)
    (st : PPState) (hinv : PPInv st)
    (hk : ∀ p ∈ products, (p.get "material_code").truthy = true →
      isPrimKey (p.get "material_code") = true) :
    PPInv (products.foldl (processOneProduct ctx) st) := by
  induction products generalizing st with
  | nil => exact hinv
  | cons p rest ih =>
      exact ih (processOneProduct ctx st p)
        (processOneProduct_inv ctx st p hinv (hk p (List.mem_cons_self p rest)))
        (fun q hq => hk q (List.mem_cons_of_mem p hq))

theorem assignSupplierOne_key (sup : String) (mk : ℚ) (p : Py) :
    (assignSupplierOne sup mk p).get "material_code" = p.get "material_code" := by
  simp only [assignSupplierOne]
  repeat' split
  all_goals repeat rw [Py.get_set_ne_any _ _ _ _ (by decide)]

theorem force_supplier_fields_key (sup br : String) (p : Py) :
    (force_supplier_fields sup br p).get "material_code" = p.get "material_code" := by
  simp only [force_supplier_fields]
  repeat' split
  all_goals repeat rw [Py.get_set_ne_any _ _ _ _ (by decide)]

theorem map_key_assign (sup : String) (mk : ℚ) (l : List Py) :
    (assign_supplier_to_products l sup mk).map (fun p => p.get "material_code")
      = l.map (fun p => p.get "material_code") := by
  unfold assign_supplier_to_products
  rw [List.map_map]
  exact List.map_congr_left (fun p _ => assignSupplierOne_key sup mk p)

theorem map_key_force (sup br : String) (l : List Py) :
    ((l.map (force_supplier_fields sup br)).map (fun p => p.get "material_code"))
      = l.map (fun p => p.get "material_code") := by
  rw [List.map_map]
  exact List.map_congr_left (fun p _ => force_supplier_fields_key sup br p)

theorem map_key_add_barcodes (l : List Py) :
    (add_barcodes_to_products l).map (fun p => p.get "material_code")
      = l.map (fun p => p.get "material_code") := by
  unfold add_barcodes_to_products
  rw [List.map_map]
  exact List.map_congr_left (fun p _ => Py.get_set_ne_any _ _ _ _ (by decide))

theorem insertSortedBy_perm {α : Type} (le : α → α → Bool) (x : α) (l : List α) :
    List.Perm (insertSortedBy le x l) (x :: l) := by
  induction l with
  | nil => rfl
  | cons z zs ih =>
      rw [insertSortedBy]
      split
      · exact (ih.cons z).trans (List.Perm.swap x z zs)
      · rfl

theorem stableSortBy_perm {α : Type} (le : α → α → Bool) (l : List α) :
    List.Perm (stableSortBy le l) l := by
  induction l with
  | nil => rfl
  | cons x xs ih => exact (insertSortedBy_perm le x (stableSortBy le xs)).trans (ih.cons x)

theorem mergeColorsAux_mem (n : List Py) (codes : List Py) (c : Py)
    (hc : c ∈ mergeColorsAux codes n) :
    c ∈ n ∧ (c.get "color_code").truthy = true
      ∧ codes.all (fun k => !pyKeyEq (c.get "color_code") k) = true := by
  induction n generalizing codes with
  | nil => simp [mergeColorsAux] at hc
  | cons color rest ih =>
      rw [mergeColorsAux] at hc
      split at hc
      · rename_i hcond
        rw [Bool.and_eq_true] at hcond
        rcases List.mem_cons.mp hc with rfl | hmem
        · refine ⟨List.mem_cons_self _ _, hcond.1, ?_⟩
          rw [List.all_eq_true]
          intro k hkm
          have := List.any_eq_false.mp (by simpa using hcond.2) k hkm
          simpa using this
        · obtain ⟨h1, h2, h3⟩ := ih (codes ++ [color.get "color_code"]) hmem
          rw [List.all_append, Bool.and_eq_true] at h3
          exact ⟨List.mem_cons_of_mem _ h1, h2, h3.1⟩
      · obtain ⟨h1, h2, h3⟩ := ih codes hc
        exact ⟨List.mem_cons_of_mem _ h1, h2, h3⟩

theorem mergeProduct_total (e n : Py) (hd : e.isDict = true) :
    (mergeProduct e n).get "total_price"
      = (match subtotalsOf (mergeColors (asList (e.getd "colors" (Py.list [])))
            (asList (n.getd "colors" (Py.list [])))) with
         | [] => Py.none
         | l => Py.num (l.foldl (fun acc v => pyfAdd acc (pyfOfPy v)) (.fin 0))) := by
  unfold mergeProduct
  rw [Py.get_set_eq_dict _ _ (Py.set_isDict _ _ hd)]

/-- C1: the Consolidator never emits two products with the same
material code — the first occurrence of a code is canonical; a later
occurrence merges in exactly those of its color variants whose (truthy)
`color_code` is not already present on the canonical product
(first-seen wins on conflicts); and after such a merge the canonical
product's `total_price` is the sum of the subtotals carried by its
merged color set (`None` when no color carries one). -/
theorem post_process_products_consolidation (ctx : PostContext) (products : List Py)
    (hk : ∀ p ∈ products, (p.get "material_code").truthy = true →
      isPrimKey (p.get "material_code") = true) :
    ((post_process_products ctx products).map (fun p => p.get "material_code")).Nodup
    ∧ (∀ eCols nCols : List Py,
        (mergeColors eCols nCols).take eCols.length = eCols
        ∧ ∀ c ∈ (mergeColors eCols nCols).drop eCols.length,
            c ∈ nCols ∧ (c.get "color_code").truthy = true
            ∧ eCols.all (fun e => !pyKeyEq (c.get "color_code") (e.get "color_code")) = true)
    ∧ (∀ e n : Py, e.isDict = true →
        (mergeProduct e n).get "total_price"
          = (match subtotalsOf (mergeColors (asList (e.getd "colors" (Py.list [])))
                (asList (n.getd "colors" (Py.list [])))) with
             | [] => Py.none
             | l => Py.num (l.foldl (fun acc v => pyfAdd acc (pyfOfPy v)) (.fin 0)))) := by
  refine ⟨?_, ?_, fun e n hd => mergeProduct_total e n hd⟩
  · have hfold := foldl_processOneProduct_inv ctx products ⟨[], [], []⟩
      ⟨List.nodup_nil, by simp⟩ hk
    simp only [post_process_products]
    split
    · simp
    · split
      · simp
      · rw [map_key_add_barcodes]
        have hperm := (stableSortBy_perm (fun a b =>
          decide (asStr (a.getd "material_code" (Py.str ""))
            ≤ asStr (b.getd "material_code" (Py.str ""))))
          ((assign_supplier_to_products
            (products.foldl (processOneProduct ctx) ⟨[], [], []⟩).processed
            ctx.supplier_name ctx.markup).map
              (force_supplier_fields ctx.supplier_name ctx.original_brand))).map
          (fun p => p.get "material_code")
        rw [hperm.nodup_iff]
        rw [map_key_force, map_key_assign]
        exact hfold.1
  · intro eCols nCols
    refine ⟨?_, ?_⟩
    · unfold mergeColors
      exact List.take_left eCols _
    · intro c hc
      unfold mergeColors at hc
      rw [List.drop_left] at hc
      obtain ⟨h1, h2, h3⟩ := mergeColorsAux_mem nCols
        (eCols.map (fun e => e.get "color_code")) c hc
      refine ⟨h1, h2, ?_⟩
      rw [List.all_map] at h3
      exact h3

/-- A concrete consolidation context (reference tables are external to
the core source). -/
def ctxScen : PostContext :=
  { categories := ["CAMISAS"], gender_of := fun _ => "HOMEM",
    supplier_name := "ACME", markup := 0, original_brand := "" }

def colorScen1 : Py :=
  Py.dict [("color_code", Py.str "001"), ("color_name", Py.str "PRETO"),
    ("sizes", Py.list [Py.dict [("size", Py.str "S"), ("quantity", Py.num (.fin 1))]])]

def colorScen2 : Py :=
  Py.dict [("color_code", Py.str "002"), ("color_name", Py.str "BRANCO"),
    ("sizes", Py.list [Py.dict [("size", Py.str "S"), ("quantity", Py.num (.fin 2))]])]

/-- Scenario B, page 1: product `CF100` with color 001. -/
def prodScen1 : Py :=
  Py.dict [("name", Py.str "CAMISA"), ("material_code", Py.str "CF100"),
    ("colors", Py.list [colorScen1])]

/-- Scenario B, page 2: product `CF100` with color 002. -/
def prodScen2 : Py :=
  Py.dict [("name", Py.str "CAMISA"), ("material_code", Py.str "CF100"),
    ("colors", Py.list [colorScen2])]

/-- C1 witness (Scenario B): two pages both reporting `CF100`, one with
color 001 and one with color 002, consolidate to a single `CF100`
product holding both colors, with pairwise-distinct material codes in
the output; and a merge of a color carrying subtotal 30 into a
subtotal-less canonical product recomputes `total_price` to 30. -/
theorem post_process_products_consolidation_witness :
    ((post_process_products ctxScen [prodScen1, prodScen2]).map
      (fun p => p.get "material_code")).Nodup
    ∧ (post_process_products ctxScen [prodScen1, prodScen2]).length = 1
    ∧ (asList (((post_process_products ctxScen [prodScen1, prodScen2]).headD
        Py.none).getd "colors" (Py.list []))).map (fun c => c.getd "color_code" (Py.str ""))
      = [Py.str "001", Py.str "002"]
    ∧ (mergeProduct (Py.dict [("colors", Py.list [])])
        (Py.dict [("colors", Py.list
          [Py.dict [("color_code", Py.str "001"),
            ("subtotal", Py.num (.fin 30))]])])).get "total_price"
      = Py.num (.fin 30) := by
  have h := post_process_products_consolidation ctxScen [prodScen1, prodScen2] (by decide)
  refine ⟨h.1, rfl, rfl, ?_⟩
  have ht := h.2.2 (Py.dict [("colors", Py.list [])])
    (Py.dict [("colors", Py.list
      [Py.dict [("color_code", Py.str "001"), ("subtotal", Py.num (.fin 30))]])]) rfl
  rw [ht]
  show Py.num (pyfAdd (.fin 0) (.fin 30)) = Py.num (.fin 30)
  norm_num [pyfAdd]

/-! ### Claim C8: reference assignment -/

/-- The (color_code, color_name, size, quantity) triples with positive
quantity of one color's size list. -/
def sizeTriples (ccv cnv : Py) (szs : List Py) : List (Py × Py × Py × Py) :=
  (szs.filter (fun sz => !pyLeZeroNum (sz.getd "quantity" (Py.num (.fin 0))))).map
    (fun sz => (ccv, cnv, sz.getd "size" (Py.str ""), sz.getd "quantity" (Py.num (.fin 0))))

def colorTriples (c : Py) : List (Py × Py × Py × Py) :=
  sizeTriples (c.getd "color_code" (Py.str "")) (c.getd "color_name" (Py.str ""))
    (asList (c.getd "sizes" (Py.list [])))

/-- All positive-quantity triples of a color list, in encounter order. -/
def positiveSizeTriples (colors : List Py) : List (Py × Py × Py × Py) :=
  colors.flatMap colorTriples

/-- The reference list a counter-based enumeration should produce:
entry `i` (0-based) carries counter `start + i + 1`. -/
def refsSpec (mc : Py) (pname : String) : ℕ → List (Py × Py × Py × Py) → List Py
  | _, [] => []
  | start, t :: ts => refDict mc pname (start + 1) t :: refsSpec mc pname (start + 1) ts

theorem refsSpec_append (mc : Py) (pname : String) (t1 t2 : List (Py × Py × Py × Py))
    (start : ℕ) :
    refsSpec mc pname start (t1 ++ t2)
      = refsSpec mc pname start t1 ++ refsSpec mc pname (start + t1.length) t2 := by
  induction t1 generalizing start with
  | nil => simp [refsSpec]
  | cons t ts ih =>
      simp only [List.cons_append, refsSpec, List.length_cons, List.append_eq]
      rw [ih (start + 1)]
      have h : start + 1 + ts.length = start + (ts.length + 1) := by omega
      rw [h]

theorem buildSizeRefs_eq (mc : Py) (pname : String) (ccv cnv : Py) (szs : List Py)
    (start : ℕ) :
    buildSizeRefs mc pname ccv cnv start szs
      = (refsSpec mc pname start (sizeTriples ccv cnv szs),
         start + (sizeTriples ccv cnv szs).length) := by
  induction szs generalizing start with
  | nil => simp [buildSizeRefs, sizeTriples, refsSpec]
  | cons sz rest ih =>
      simp only [buildSizeRefs]
      split
      · rename_i hle
        rw [ih start]
        have h2 : sizeTriples ccv cnv (sz :: rest) = sizeTriples ccv cnv rest := by
          simp [sizeTriples, List.filter, hle]
        rw [h2]
      · rename_i hgt
        rw [ih (start + 1)]
        have h2 : sizeTriples ccv cnv (sz :: rest)
            = (ccv, cnv, sz.getd "size" (Py.str ""), sz.getd "quantity" (Py.num (.fin 0)))
              :: sizeTriples ccv cnv rest := by
          simp [sizeTriples, List.filter, hgt]
        rw [h2]
        simp only [refsSpec, List.length_cons, Prod.mk.injEq]
        exact ⟨trivial, by omega⟩

theorem buildReferences_eq (mc : Py) (pname : String) (colors : List Py) (start : ℕ) :
    buildReferences mc pname start colors
      = (refsSpec mc pname start (positiveSizeTriples colors),
         start + (positiveSizeTriples colors).length) := by
  induction colors generalizing start with
  | nil => simp [buildReferences, positiveSizeTriples, refsSpec]
  | cons c rest ih =>
      simp only [buildReferences]
      rw [buildSizeRefs_eq]
      rw [ih]
      have hpos : positiveSizeTriples (c :: rest)
          = colorTriples c ++ positiveSizeTriples rest := by
        simp [positiveSizeTriples]
      rw [hpos, refsSpec_append, List.length_append]
      simp only [colorTriples, Prod.mk.injEq]
      exact ⟨trivial, by omega⟩

theorem refsSpec_length (mc : Py) (pname : String) (ts : List (Py × Py × Py × Py))
    (start : ℕ) : (refsSpec mc pname start ts).length = ts.length := by
  induction ts generalizing start with
  | nil => rfl
  | cons t ts2 ih => simp [refsSpec, ih]

theorem refsSpec_get (mc : Py) (pname : String) (ts : List (Py × Py × Py × Py))
    (start i : ℕ) (h1 : i < (refsSpec mc pname start ts).length) (h2 : i < ts.length) :
    (refsSpec mc pname start ts).get ⟨i, h1⟩
      = refDict mc pname (start + i + 1) (ts.get ⟨i, h2⟩) := by
  induction ts generalizing start i with
  | nil => exact absurd h2 (by simp)
  | cons t ts2 ih =>
      cases i with
      | zero => rfl
      | succ j =>
          have h1j : j < (refsSpec mc pname (start + 1) ts2).length := by
            simpa [refsSpec] using h1
          have h2j : j < ts2.length := by simpa using h2
          have := ih (start + 1) j h1j h2j
          rw [show (refsSpec mc pname start (t :: ts2)).get ⟨j + 1, h1⟩
              = (refsSpec mc pname (start + 1) ts2).get ⟨j, h1j⟩ from rfl]
          rw [this]
          have harith : start + 1 + j + 1 = start + (j + 1) + 1 := by omega
          rw [harith]
          rfl

/-- C8 (amended): the reference assignment runs only when a material
code is first seen, over that first occurrence's colors: the (color,
size, quantity>0) triples, in encounter order, receive references
`"{material_code}.{n}"` with the per-material counter starting at 1 and
increasing by 1 (triple `i`, 0-based, gets counter `i + 1`), together
with description `"{name}[{color_code}/{size}]"`; triples with
quantity ≤ 0 receive no reference and do not advance the counter.
Color variants merged in from later occurrences receive no reference
(see the counterexample). -/
theorem buildReferences_assigns_in_order (mc : Py) (pname : String) (colors : List Py) :
    (buildReferences mc pname 0 colors).1.length = (positiveSizeTriples colors).length
    ∧ (buildReferences mc pname 0 colors).2 = (positiveSizeTriples colors).length
    ∧ ∀ i (h1 : i < (buildReferences mc pname 0 colors).1.length)
        (h2 : i < (positiveSizeTriples colors).length),
        (buildReferences mc pname 0 colors).1.get ⟨i, h1⟩
          = refDict mc pname (i + 1) ((positiveSizeTriples colors).get ⟨i, h2⟩) := by
  have hb := buildReferences_eq mc pname colors 0
  have hl : (buildReferences mc pname 0 colors).1
      = refsSpec mc pname 0 (positiveSizeTriples colors) := by rw [hb]
  refine ⟨?_, ?_, ?_⟩
  · rw [hl]
    exact refsSpec_length mc pname _ 0
  · rw [hb]
    simp
  · intro i h1 h2
    have h1s : i < (refsSpec mc pname 0 (positiveSizeTriples colors)).length := by
      rw [← hl]
      exact h1
    have hget := List.get_of_eq hl ⟨i, h1⟩
    rw [hget]
    have hmain := refsSpec_get mc pname (positiveSizeTriples colors) 0 i h1s h2
    rw [show (0 : ℕ) + i + 1 = i + 1 from by omega] at hmain
    exact hmain

/-- C8 counterexample: consolidating the two `CF100` pages merges color
002 into the canonical product — which then carries a positive-quantity
triple for color 002 (quantity 2) — yet its references cover only color
001: the merged triple is assigned no reference. -/
theorem post_process_reference_gap :
    ((asList (((post_process_products ctxScen [prodScen1, prodScen2]).headD
        Py.none).getd "references" (Py.list []))).map
          (fun r => r.getd "color_code" (Py.str "")))
      = [Py.str "001"]
    ∧ (asList (((post_process_products ctxScen [prodScen1, prodScen2]).headD
        Py.none).getd "colors" (Py.list []))).map
          (fun c => (c.getd "color_code" (Py.str ""),
            (asList (c.getd "sizes" (Py.list []))).map
              (fun s => s.getd "quantity" (Py.num (.fin 0)))))
      = [(Py.str "001", [Py.num (.fin 1)]), (Py.str "002", [Py.num (.fin 2)])] :=
  ⟨rfl, rfl⟩

/-- C8 witness (for the amended theorem): a first occurrence with two
colors and a zero-quantity entry in between yields exactly two
references, numbered 1 and 2 over the positive triples in encounter
order. -/
theorem buildReferences_assigns_in_order_witness :
    (buildReferences (Py.str "CF100") "CAMISA" 0
      [Py.dict [("color_code", Py.str "001"), ("color_name", Py.str "PRETO"),
        ("sizes", Py.list [Py.dict [("size", Py.str "S"), ("quantity", Py.num (.fin 1))],
          Py.dict [("size", Py.str "M"), ("quantity", Py.num (.fin 0))]])],
       Py.dict [("color_code", Py.str "002"), ("color_name", Py.str "BRANCO"),
        ("sizes", Py.list [Py.dict [("size", Py.str "L"), ("quantity", Py.num (.fin 2))]])]]).1.length
      = 2
    ∧ (buildReferences (Py.str "CF100") "CAMISA" 0
      [Py.dict [("color_code", Py.str "001"), ("color_name", Py.str "PRETO"),
        ("sizes", Py.list [Py.dict [("size", Py.str "S"), ("quantity", Py.num (.fin 1))],
          Py.dict [("size", Py.str "M"), ("quantity", Py.num (.fin 0))]])],
       Py.dict [("color_code", Py.str "002"), ("color_name", Py.str "BRANCO"),
        ("sizes", Py.list [Py.dict [("size", Py.str "L"), ("quantity", Py.num (.fin 2))]])]]).1.get
        ⟨1, by decide⟩
      = refDict (Py.str "CF100") "CAMISA" 2
          (Py.str "002", Py.str "BRANCO", Py.str "L", Py.num (.fin 2)) := by
  have h := buildReferences_assigns_in_order (Py.str "CF100") "CAMISA"
    [Py.dict [("color_code", Py.str "001"), ("color_name", Py.str "PRETO"),
      ("sizes", Py.list [Py.dict [("size", Py.str "S"), ("quantity", Py.num (.fin 1))],
        Py.dict [("size", Py.str "M"), ("quantity", Py.num (.fin 0))]])],
     Py.dict [("color_code", Py.str "002"), ("color_name", Py.str "BRANCO"),
      ("sizes", Py.list [Py.dict [("size", Py.str "L"), ("quantity", Py.num (.fin 2))]])]]
  refine ⟨by rw [h.1]; rfl, ?_⟩
  have hg := h.2.2 1 (by decide) (by decide)
  rw [hg]
  rfl

/-! ## Claim C6: first-page failure is fatal, later failures degrade

`enhanced_process_page` (`recovery_integration.py`) wraps the original
per-page processing; the original outcome and the recovery attempt are
oracle-dependent and enter as parameters (`Except.error` models a raised
exception, `Option.none` a recovery that itself raised). -/

def lowerStr (s : String) : String := String.mk (s.toList.map Char.toLower)

/-- The `except` branch of `enhanced_process_page`: attempt recovery
when past page 1 or the error mentions json; on page 1 re-raise,
otherwise degrade to the empty, error-tagged, skipped page result. -/
def page_failure_fallback (recovery : Option Py) (page_number : ℕ) (e : String) :
    Except String Py :=
  let attempt : Option Py :=
    if page_number > 1 || containsSub ("json".toList) (lowerStr e).toList then
      match recovery with
      | some r => if (r.get "products").truthy then some r else Option.none
      | Option.none => Option.none
    else Option.none
  match attempt with
  | some r => Except.ok r
  | Option.none =>
      if page_number = 1 then Except.error e
      else
        Except.ok (Py.dict
          [("products", Py.list []), ("order_info", Py.dict []),
           ("error", Py.str e), ("page_skipped", Py.bool true)])

/-- `enhanced_process_page`: keep a truthy original result that has
products or no error; otherwise treat it as a failure with its error
message. -/
def enhanced_process_page (orig : Except String Py) (recovery : Option Py)
    (page_number : ℕ) : Except String Py :=
  match orig with
  | .ok result =>
      if result.truthy && ((result.get "products").truthy || !(result.get "error").truthy) then
        .ok result
      else
        page_failure_fallback recovery page_number
          (asStr (result.getd "error" (Py.str "Erro desconhecido no processamento")))
  | .error e => page_failure_fallback recovery page_number e

/-- A page result that the document loop treats as failed:
`"error" in page_result and not page_result.get("products")`. -/
def pageFails (p : Py) : Bool := p.hasKey "error" && !(p.get "products").truthy

def asDict : Py → List (String × Py)
  | .dict kvs => kvs
  | _ => []

/-- The per-page `order_info` merge of `extract_document`: a page value
wins only when truthy and the combined entry is absent or falsy. -/
def mergeOrderInfo (combined : Py) (page_oi : List (String × Py)) : Py :=
  page_oi.foldl (fun acc kv =>
    if kv.2.truthy && !(acc.get kv.1).truthy then acc.set kv.1 kv.2 else acc) combined

/-- The page loop of `extract_document` over the per-page results: a
failed page 1 raises; a failed later page is skipped; otherwise its
products are appended and its order info merged. -/
def extract_document_pages (page_num : ℕ) (combined_products : List Py)
    (combined_oi : Py) : List Py → Except String (List Py × Py)
  | [] => .ok (combined_products, combined_oi)
  | pr :: rest =>
      if pageFails pr then
        if page_num = 1 then
          .error ("Falha ao processar a primeira página: " ++ asStr (pr.get "error"))
        else extract_document_pages (page_num + 1) combined_products combined_oi rest
      else
        let prods := if pr.hasKey "products" then asList (pr.getd "products" (Py.list []))
          else []
        let oi :=
          if pr.hasKey "order_info" && (pr.get "order_info").truthy then
            mergeOrderInfo combined_oi (asDict (pr.get "order_info"))
          else combined_oi
        extract_document_pages (page_num + 1) (combined_products ++ prods) oi rest

theorem extract_document_pages_ok_of_two_le (pages : List Py) :
    ∀ (n : ℕ), 2 ≤ n → ∀ (acc : List Py) (oi : Py),
      ∃ v, extract_document_pages n acc oi pages = .ok v := by
  induction pages with
  | nil => exact fun n _ acc oi => ⟨(acc, oi), rfl⟩
  | cons pr rest ih =>
      intro n hn acc oi
      rw [extract_document_pages]
      split
      · rw [if_neg (by omega)]
        exact ih (n + 1) (by omega) acc oi
      · exact ih (n + 1) (by omega) _ _

/-- C6: a page result carrying an error and no products is fatal for
the document exactly when it is page 1.  (1) The page loop raises iff
the first page result fails; (2) a failed page after the first is
skipped and processing continues on the remaining pages; (3) at the
page level, a failed original whose recovery produces no products
re-raises on page 1 and degrades to the empty, error-tagged,
`page_skipped` result on every later page. -/
theorem first_page_failure_fatal (pages : List Py) :
    ((∃ msg, extract_document_pages 1 [] (Py.dict []) pages = .error msg)
      ↔ (∃ p1 rest, pages = p1 :: rest ∧ pageFails p1 = true))
    ∧ (∀ (m : ℕ), 2 ≤ m → ∀ (acc : List Py) (oi : Py) (bad : Py) (rest : List Py),
        pageFails bad = true →
        extract_document_pages m acc oi (bad :: rest)
          = extract_document_pages (m + 1) acc oi rest)
    ∧ (∀ (e : String) (recovery : Option Py),
        (∀ r, recovery = some r → (r.get "products").truthy = false) →
        enhanced_process_page (.error e) recovery 1 = .error e
        ∧ ∀ (n : ℕ), 2 ≤ n →
            enhanced_process_page (.error e) recovery n
              = .ok (Py.dict
                  [("products", Py.list []), ("order_info", Py.dict []),
                   ("error", Py.str e), ("page_skipped", Py.bool true)])) := by
  refine ⟨⟨?_, ?_⟩, ?_, ?_⟩
  · intro ⟨msg, hmsg⟩
    cases pages with
    | nil => simp [extract_document_pages] at hmsg
    | cons p1 rest =>
        rw [extract_document_pages] at hmsg
        by_cases hf : pageFails p1
        · exact ⟨p1, rest, rfl, hf⟩
        · exfalso
          rw [if_neg (by simp [hf])] at hmsg
          obtain ⟨v, hv⟩ := extract_document_pages_ok_of_two_le rest 2 (by omega) _ _
          rw [hv] at hmsg
          exact absurd hmsg (by simp)
  · intro ⟨p1, rest, hpages, hfail⟩
    subst hpages
    rw [extract_document_pages, if_pos hfail, if_pos rfl]
    exact ⟨_, rfl⟩
  · intro m hm acc oi bad rest hfail
    rw [extract_document_pages, if_pos hfail, if_neg (by omega)]
  · intro e recovery hrec
    constructor
    · unfold enhanced_process_page page_failure_fallback
      simp only
      have hattempt : (if 1 > 1 || containsSub ("json".toList) (lowerStr e).toList then
          match recovery with
          | some r => if (r.get "products").truthy then some r else Option.none
          | Option.none => Option.none
        else Option.none) = Option.none := by
        split
        · cases hr : recovery with
          | none => rfl
          | some r => simp [hrec r hr]
        · rfl
      rw [hattempt]
      simp
    · intro n hn
      unfold enhanced_process_page page_failure_fallback
      simp only
      have hattempt : (if n > 1 || containsSub ("json".toList) (lowerStr e).toList then
          match recovery with
          | some r => if (r.get "products").truthy then some r else Option.none
          | Option.none => Option.none
        else Option.none) = Option.none := by
        split
        · cases hr : recovery with
          | none => rfl
          | some r => simp [hrec r hr]
        · rfl
      rw [hattempt]
      rw [if_neg (by omega)]

theorem first_page_failure_fatal_witness :
    (∃ msg, extract_document_pages 1 [] (Py.dict [])
        [Py.dict [("error", Py.str "boom")]] = .error msg)
    ∧ extract_document_pages 2 [] (Py.dict [])
        [Py.dict [("error", Py.str "boom")], Py.dict [("products", Py.list [Py.str "p"])]]
        = extract_document_pages 3 [] (Py.dict [])
            [Py.dict [("products", Py.list [Py.str "p"])]]
    ∧ enhanced_process_page (.error "e1") Option.none 1 = .error "e1"
    ∧ enhanced_process_page (.error "e1") Option.none 2
        = .ok (Py.dict
            [("products", Py.list []), ("order_info", Py.dict []),
             ("error", Py.str "e1"), ("page_skipped", Py.bool true)]) := by
  have h := first_page_failure_fatal [Py.dict [("error", Py.str "boom")]]
  refine ⟨h.1.mpr ⟨Py.dict [("error", Py.str "boom")], [], rfl, by decide⟩,
    h.2.1 2 (by omega) [] (Py.dict []) (Py.dict [("error", Py.str "boom")])
      [Py.dict [("products", Py.list [Py.str "p"])]] (by decide),
    (h.2.2 "e1" Option.none (fun r hr => by cases hr)).1,
    (h.2.2 "e1" Option.none (fun r hr => by cases hr)).2 2 (by omega)⟩

/-! ## Claim C7: the validation retry loop

`extract_with_validation` (`gemini_extractor.py`) re-extracts while the
aggregate confidence is below 0.5 and retries remain.  The validation
agent and the alternative-strategy extractor are oracle-dependent and
enter as parameters: `revalidate` re-scores a product list and
`alternative` is the product list returned by
`_retry_extraction_with_different_strategy` on each attempt (empty when
it found nothing or raised). -/

structure VRes where
  products : List Py
  confidence_score : ℚ

/-- The retry loop of `extract_with_validation`: while the score is
below 0.5 and retries remain, re-extract; whenever the alternative is
non-empty, replace the validation result by its re-scored validation,
with no comparison against the previous score. -/
def extract_with_validation_retry (revalidate : List Py → VRes)
    (alternative : ℕ → List Py) (max_retries : ℕ) (retry_count : ℕ) (vr : VRes) : VRes :=
  if vr.confidence_score < 1/2 ∧ retry_count < max_retries then
    let rc := retry_count + 1
    if (alternative rc).isEmpty then
      extract_with_validation_retry revalidate alternative max_retries rc vr
    else
      extract_with_validation_retry revalidate alternative max_retries rc
        (revalidate (alternative rc))
  else vr
termination_by max_retries - retry_count
decreasing_by all_goals omega

/-- C7 counterexample: with the default `max_retries = 1`, an initial
result scoring 2/5 triggers a retry; the alternative extraction is
non-empty and re-scores to only 1/5, yet the loop returns the
alternative products — the lower-scoring re-extraction replaces the
original, which the claim says would be retained. -/
theorem validation_retry_keeps_lower_score :
    (extract_with_validation_retry (fun _ => ⟨[Py.str "alt"], 1/5⟩)
        (fun _ => [Py.str "alt"]) 1 0 ⟨[Py.str "orig"], 2/5⟩).products
      = [Py.str "alt"]
    ∧ ((1 : ℚ)/5 < 2/5) ∧ ((2 : ℚ)/5 < 1/2) := by
  refine ⟨?_, by norm_num, by norm_num⟩
  rw [extract_with_validation_retry, if_pos ⟨by norm_num, by omega⟩]
  rw [if_neg (by decide)]
  rw [extract_with_validation_retry, if_neg (by intro h; exact absurd h.2 (by omega))]

/-- C7 (amended): with `max_retries = 1`, a result already scoring at
least 0.5 is returned unchanged; a result scoring below 0.5 triggers
one alternative extraction, and the loop returns the re-scored
alternative whenever it is non-empty — regardless of how it scores —
keeping the original only when the alternative is empty. -/
theorem extract_with_validation_retry_spec (revalidate : List Py → VRes)
    (alternative : ℕ → List Py) (vr : VRes) :
    (vr.confidence_score < 1/2 →
      extract_with_validation_retry revalidate alternative 1 0 vr
        = if (alternative 1).isEmpty then vr else revalidate (alternative 1))
    ∧ (1/2 ≤ vr.confidence_score →
      extract_with_validation_retry revalidate alternative 1 0 vr = vr) := by
  constructor
  · intro hlow
    rw [extract_with_validation_retry, if_pos ⟨hlow, by omega⟩]
    show (if (alternative 1).isEmpty = true then
        extract_with_validation_retry revalidate alternative 1 1 vr
      else extract_with_validation_retry revalidate alternative 1 1 (revalidate (alternative 1)))
      = if (alternative 1).isEmpty = true then vr else revalidate (alternative 1)
    by_cases he : (alternative 1).isEmpty = true
    · rw [if_pos he, if_pos he, extract_with_validation_retry.eq_def,
        if_neg (by intro h; exact absurd h.2 (by omega))]
    · rw [if_neg he, if_neg he, extract_with_validation_retry.eq_def,
        if_neg (by intro h; exact absurd h.2 (by omega))]
  · intro hhigh
    rw [extract_with_validation_retry, if_neg (by intro h; exact absurd h.1 (by linarith))]

theorem extract_with_validation_retry_spec_witness :
    ((3 : ℚ)/10 < 1/2
      ∧ extract_with_validation_retry (fun ps => ⟨ps, 3/5⟩)
          (fun _ => [Py.str "alt2"]) 1 0 ⟨[Py.str "orig2"], 3/10⟩
        = ⟨[Py.str "alt2"], 3/5⟩)
    ∧ ((1 : ℚ)/2 ≤ 4/5
      ∧ extract_with_validation_retry (fun ps => ⟨ps, 3/5⟩)
          (fun _ => [Py.str "alt2"]) 1 0 ⟨[Py.str "orig2"], 4/5⟩
        = ⟨[Py.str "orig2"], 4/5⟩) := by
  constructor
  · refine ⟨by norm_num, ?_⟩
    have h := (extract_with_validation_retry_spec (fun ps => ⟨ps, 3/5⟩)
      (fun _ => [Py.str "alt2"]) ⟨[Py.str "orig2"], 3/10⟩).1 (by norm_num)
    rw [h]
    rfl
  · refine ⟨by norm_num, ?_⟩
    exact (extract_with_validation_retry_spec (fun ps => ⟨ps, 3/5⟩)
      (fun _ => [Py.str "alt2"]) ⟨[Py.str "orig2"], 4/5⟩).2 (by norm_num)
